import Mathlib

/-! Shallow embedding of the eclale rhythm-game client timing/position core and
scene-batching layer, together with proofs of the specification claims about them.
Conventions: `f32` scalars are modelled as rationals (`ℚ`); `u32`/`usize` as `Nat`;
`u16` casts and arithmetic carry an explicit `% 65536`; a Rust panic (failed
assertion, `unwrap` of `None`, out-of-bounds index) is modelled by an `Option`
result of `none`. -/

namespace Eclale

/-! Section 1: `eclale_chart/src/util.rs` — the measure timeline and the
Z-position calculator. -/

/-- Time signature of a measure (`eclale_chart/src/lib.rs`). -/
structure TimeSignature where
  num_beats : Nat
  note_value : Nat
deriving DecidableEq

/-- Musical data of one measure (`MeasureCompositionData` in `util.rs`). -/
structure MeasureCompositionData where
  time_signature : TimeSignature
  bpm : Nat
  speed_multiplier : ℚ
  subdivision : Nat
deriving DecidableEq

/-- A (time, z) pair (`ZPosition` in `util.rs`; `Time` is a newtype over `f32`). -/
structure ZPosition where
  time : ℚ
  z : ℚ
deriving DecidableEq

/-- Positional data of one measure (`MeasurePositionData` in `util.rs`). -/
structure MeasurePositionData where
  offset : ZPosition
  duration : ZPosition
deriving DecidableEq

/-- Composition plus position data of one measure (`MeasureData` in `util.rs`). -/
structure MeasureData where
  composition : MeasureCompositionData
  position : MeasurePositionData
deriving DecidableEq

/-- The running fold inside `ZPositionCalculator::new` (the `scan` over
`measure_compositions`): each measure receives the accumulated offset, and the
accumulator advances by the measure durations on both axes. -/
def buildMeasures (z_base_speed : ℚ) : ZPosition → List MeasureCompositionData → List MeasureData
  | _, [] => []
  | current_position, measure :: rest =>
    let beat_duration : ℚ := 60 / (measure.bpm : ℚ)
    let z_duration_time : ℚ :=
      (measure.time_signature.num_beats : ℚ) * beat_duration *
        (4 / (measure.time_signature.note_value : ℚ))
    let z_duration_length : ℚ :=
      (measure.time_signature.num_beats : ℚ) * beat_duration *
        (4 / (measure.time_signature.note_value : ℚ)) * z_base_speed
    { composition := measure
      position :=
        { offset := current_position
          duration := ⟨z_duration_time, z_duration_length⟩ } } ::
      buildMeasures z_base_speed
        ⟨current_position.time + z_duration_time, current_position.z + z_duration_length⟩ rest

/-- `ZPositionCalculator` from `util.rs`. -/
structure ZPositionCalculator where
  measures : List MeasureData
  z_base_speed : ℚ
deriving DecidableEq

/-- `ZPositionCalculator::new`: the accumulator is seeded with
`(music_offset, music_offset * z_base_speed)`. -/
def ZPositionCalculator.new (measure_compositions : List MeasureCompositionData)
    (music_offset : ℚ) (z_base_speed : ℚ) : ZPositionCalculator :=
  { measures :=
      buildMeasures z_base_speed ⟨music_offset, music_offset * z_base_speed⟩ measure_compositions
    z_base_speed := z_base_speed }

/-- `ZPositionCalculator::z_position_at`. An out-of-range measure index makes the
Rust code log an error and then panic on the vector index; modelled as `none`. -/
def ZPositionCalculator.z_position_at (c : ZPositionCalculator) (measure : Nat)
    (subdivision_index : ℚ) : Option ZPosition :=
  match c.measures.get? measure with
  | none => none
  | some md =>
    let subdivision := md.composition.subdivision
    let position_data := md.position
    let index := subdivision_index - 1
    let ratio := index / (subdivision : ℚ)
    some ⟨position_data.offset.time + ratio * position_data.duration.time,
      position_data.offset.z + ratio * position_data.duration.z⟩

/-- The per-measure time duration formula used by the fold:
`num_beats * (60 / bpm) * (4 / note_value)`. -/
def measureTimeDuration (mc : MeasureCompositionData) : ℚ :=
  (mc.time_signature.num_beats : ℚ) * (60 / (mc.bpm : ℚ)) *
    (4 / (mc.time_signature.note_value : ℚ))

/-! Section 2: `eclale_chart/src/parse/ogkr.rs` —
`OgkrChartCreator::create_z_position_calculator`. The change-event lists come
from the external `ogkr` parser crate; only the fields this loop reads are
modelled. -/

/-- A chart-native timing point of the external `ogkr` crate; only the measure
index (1-based in the chart format) is read by the timeline loop. -/
structure TimingPoint where
  measure : Nat
deriving DecidableEq

/-- A tempo change event from the external parser. -/
structure OgkrBpmChange where
  bpm : Nat
deriving DecidableEq

/-- A meter (time-signature) change event from the external parser. -/
structure OgkrMeterChange where
  num_beats : Nat
  note_value : Nat
deriving DecidableEq

/-- A scroll-speed (soflan) change event from the external parser. -/
structure OgkrSoflan where
  speed_multiplier : ℚ
deriving DecidableEq

/-- One loop step for the tempo list: if the next pending change triggers at or
before the current measure index (`measure_index >= timing_point.measure - 1`;
the chart measure numbers are 1-based, and the `u32` subtraction is modelled by
truncated `Nat` subtraction), the change overwrites `bpm` and the cursor
advances, else nothing happens. -/
def applyBpmChange (measure_index : Nat) (cur : MeasureCompositionData)
    (changes : List (TimingPoint × OgkrBpmChange)) :
    MeasureCompositionData × List (TimingPoint × OgkrBpmChange) :=
  match changes with
  | [] => (cur, [])
  | (timing_point, change) :: rest =>
    if timing_point.measure - 1 ≤ measure_index then
      ({ cur with bpm := change.bpm }, rest)
    else (cur, (timing_point, change) :: rest)

/-- One loop step for the time-signature list (same visitation policy). -/
def applyMeterChange (measure_index : Nat) (cur : MeasureCompositionData)
    (changes : List (TimingPoint × OgkrMeterChange)) :
    MeasureCompositionData × List (TimingPoint × OgkrMeterChange) :=
  match changes with
  | [] => (cur, [])
  | (timing_point, change) :: rest =>
    if timing_point.measure - 1 ≤ measure_index then
      ({ cur with time_signature := ⟨change.num_beats, change.note_value⟩ }, rest)
    else (cur, (timing_point, change) :: rest)

/-- One loop step for the scroll-speed list (same visitation policy). -/
def applySoflan (measure_index : Nat) (cur : MeasureCompositionData)
    (changes : List (TimingPoint × OgkrSoflan)) :
    MeasureCompositionData × List (TimingPoint × OgkrSoflan) :=
  match changes with
  | [] => (cur, [])
  | (timing_point, soflan) :: rest =>
    if timing_point.measure - 1 ≤ measure_index then
      ({ cur with speed_multiplier := soflan.speed_multiplier }, rest)
    else (cur, (timing_point, soflan) :: rest)

/-- The measure loop of `create_z_position_calculator`: for each measure index it
applies at most one pending change from each of the three lists (tempo, then
meter, then soflan) and appends a snapshot of the resulting composition. -/
def createMeasureCompositions :
    Nat → Nat → MeasureCompositionData →
    List (TimingPoint × OgkrBpmChange) → List (TimingPoint × OgkrMeterChange) →
    List (TimingPoint × OgkrSoflan) → List MeasureCompositionData
  | 0, _, _, _, _, _ => []
  | n + 1, measure_index, cur, bpm_changes, meter_changes, soflans =>
    let s1 := applyBpmChange measure_index cur bpm_changes
    let s2 := applyMeterChange measure_index s1.1 meter_changes
    let s3 := applySoflan measure_index s2.1 soflans
    s3.1 :: createMeasureCompositions n (measure_index + 1) s3.1 s1.2 s2.2 s3.2

/-- `OgkrChartCreator::create_z_position_calculator`: runs the measure loop over
`0..num_measures` from the starting composition, then builds the calculator with
audio offset `0.0` and base z speed `1.0` (both currently hard-coded). -/
def create_z_position_calculator
    (bpm_changes : List (TimingPoint × OgkrBpmChange))
    (meter_changes : List (TimingPoint × OgkrMeterChange))
    (soflans : List (TimingPoint × OgkrSoflan))
    (starting_time_signature : TimeSignature) (starting_bpm : Nat)
    (starting_speed_multiplier : ℚ) (subdivision : Nat) (num_measures : Nat) :
    ZPositionCalculator :=
  ZPositionCalculator.new
    (createMeasureCompositions num_measures 0
      ⟨starting_time_signature, starting_bpm, starting_speed_multiplier, subdivision⟩
      bpm_changes meter_changes soflans)
    0 1

/-! Section 3: `eclale_graphics/src/geometry/plane.rs` — strip triangulation. -/

/-- A 3-component vector (`nalgebra::Vector3<f32>`). -/
structure Vector3 where
  x : ℚ
  y : ℚ
  z : ℚ
deriving DecidableEq, Inhabited

/-- `Plane` from `plane.rs`: vertex positions plus `u16` triangle indices. -/
structure Plane where
  vertices : List Vector3
  indices : List Nat
deriving DecidableEq

/-- The lock-step phase of the vertex weave in `triangulate_from_two_sides`:
while both iterators yield, push the pair (a then b). -/
def interleave : List Vector3 → List Vector3 → List Vector3
  | [], _ => []
  | _, [] => []
  | a :: as_, b :: bs => a :: b :: interleave as_ bs

/-- The fan-out tail when side a is longer: every remaining a vertex is paired
with the last woven b vertex. -/
def pairTailLeft (last_b : Vector3) : List Vector3 → List Vector3
  | [] => []
  | a :: rest => a :: last_b :: pairTailLeft last_b rest

/-- The fan-out tail when side b is longer: every remaining b vertex is paired
with the last woven a vertex. -/
def pairTailRight (last_a : Vector3) : List Vector3 → List Vector3
  | [] => []
  | b :: rest => last_a :: b :: pairTailRight last_a rest

/-- The full vertex list built by the three loops of `triangulate_from_two_sides`.
With `k = min` of the lengths, the zip loop leaves `last_a_index`/`last_b_index`
at the vertices of pair `k - 1`; at most one of the two tails is nonempty. -/
def buildStripVertices (side_a side_b : List Vector3) : List Vector3 :=
  interleave side_a side_b ++
    pairTailLeft (side_b.getD (min side_a.length side_b.length - 1) default)
      (side_a.drop (min side_a.length side_b.length)) ++
    pairTailRight (side_a.getD (min side_a.length side_b.length - 1) default)
      (side_b.drop (min side_a.length side_b.length))

/-- The index loop body: starting at `i` and running `steps` times, push the two
triangles `(i, i+1, i+2)` and `(i+1, i+2, i+3)` and advance `i` by 2. -/
def quadStripIndices : Nat → Nat → List Nat
  | _, 0 => []
  | i, steps + 1 =>
    i :: (i + 1) :: (i + 2) :: (i + 1) :: (i + 2) :: (i + 3) ::
      quadStripIndices (i + 2) steps

/-- Index list of `triangulate_from_two_sides` for a vertex count of `len16`
(already reduced `% 65536` by the `as u16` cast): `for i in (0..len16 - 2).step_by(2)`,
which runs `ceil((len16 - 2) / 2)` times. The subtraction is `u16`; below `2` it
would panic in a debug build, which never happens for the even counts `≥ 4`
produced here unless the count is a multiple of 65536. -/
def stripIndices (len16 : Nat) : List Nat :=
  quadStripIndices 0 ((len16 - 2 + 1) / 2)

/-- `Plane::triangulate_from_two_sides`. The two leading length assertions read
the lengths through an `as u16` cast; a failed assertion panics (`none`). -/
def triangulate_from_two_sides (side_a side_b : List Vector3) : Option Plane :=
  if 2 ≤ side_a.length % 65536 ∧ 2 ≤ side_b.length % 65536 then
    if 4 ≤ (buildStripVertices side_a side_b).length ∧
        (buildStripVertices side_a side_b).length % 2 = 0 then
      some { vertices := buildStripVertices side_a side_b
             indices := stripIndices ((buildStripVertices side_a side_b).length % 65536) }
    else none
  else none

/-! Section 4: `eclale/src/renderer/track_description.rs` — hold-note and lane
MOSV (multi-object single-vertex-stream) descriptions. -/

/-- An RGBA color (`nalgebra::Vector4<f32>`). -/
structure Color4 where
  r : ℚ
  g : ℚ
  b : ℚ
  a : ℚ
deriving DecidableEq

/-- Raw hit-note type tag (`HitNoteType(pub u16)` in `eclale_chart`). -/
structure HitNoteType where
  val : Nat
deriving DecidableEq

/-- Raw lane type tag (`LaneType(pub u16)` in `eclale_chart`). -/
structure LaneType where
  val : Nat
deriving DecidableEq

/-- A resolved chart-space position (`TrackPosition` in `eclale_chart`). -/
structure TrackPosition where
  time : ℚ
  z : ℚ
  x : ℚ
deriving DecidableEq

/-- A hold note (`HoldNote` in `eclale_chart`). -/
structure HoldNote where
  ty : HitNoteType
  points : List TrackPosition
deriving DecidableEq

/-- A lane (`Lane` in `eclale_chart`). -/
structure Lane where
  points : List TrackPosition
deriving DecidableEq

/-- `get_base_color_hit`: fixed color table with a logged-warning fallback. -/
def get_base_color_hit (hit_type : HitNoteType) : Color4 :=
  match hit_type.val with
  | 0 | 10 => ⟨1, 0, 1, 1⟩
  | 1 | 11 => ⟨1/2, 0, 1/2, 1⟩
  | 2 | 12 => ⟨1, 0, 0, 1⟩
  | 3 | 13 => ⟨0, 1, 0, 1⟩
  | 4 | 14 => ⟨0, 0, 1, 1⟩
  | _ => ⟨1, 1, 1, 1⟩

/-- `get_base_color_lane`: fixed color table with a logged-warning fallback. -/
def get_base_color_lane (lane_type : LaneType) : Color4 :=
  match lane_type.val with
  | 1 | 12 => ⟨1, 0, 0, 1⟩
  | 2 | 13 => ⟨0, 1, 0, 1⟩
  | 3 | 14 => ⟨0, 0, 1, 1⟩
  | _ => ⟨1, 1, 1, 1⟩

/-- `Mesh` from `eclale_graphics/src/geometry/mod.rs`. -/
structure Mesh where
  vertices : List Vector3
  indices : List Nat
deriving DecidableEq

/-- `Plane::to_mesh`. -/
def Plane.to_mesh (p : Plane) : Mesh :=
  ⟨p.vertices, p.indices⟩

/-- `Mesh::transform` applied to a pure translation matrix (the only call sites
in `track_description.rs` pass `Matrix4::new_translation`), which adds the
translation vector to every vertex and keeps the indices. -/
def Mesh.transform_translate (m : Mesh) (t : Vector3) : Mesh :=
  { vertices := m.vertices.map (fun v => ⟨v.x + t.x, v.y + t.y, v.z + t.z⟩)
    indices := m.indices }

/-- `TrackDescriptionCreator::track_position_to_xz_vertices`: project each point
to the xz plane, scaling z by the runner speed. -/
def track_position_to_xz_vertices (runner_speed : ℚ)
    (track_positions : List TrackPosition) : List Vector3 :=
  track_positions.map (fun p => ⟨p.x, 0, p.z * runner_speed⟩)

/-- `TrackDescriptionCreator::create_plane_mesh_from_points`: shift the single
boundary left and right by half the width and triangulate the two sides. -/
def create_plane_mesh_from_points (runner_speed : ℚ) (points : List TrackPosition)
    (width : ℚ) : Option Mesh :=
  (triangulate_from_two_sides
      ((track_position_to_xz_vertices runner_speed points).map
        (fun point => ⟨point.x - width / 2, point.y, point.z⟩))
      ((track_position_to_xz_vertices runner_speed points).map
        (fun point => ⟨point.x + width / 2, point.y, point.z⟩))).map
    Plane.to_mesh

/-- `HIT_X_LENGTH` from `track_renderer.rs` (0.25). -/
def HIT_X_LENGTH : ℚ := 1/4

/-- `TrackDescriptionCreator::create_hold_note_mesh`. -/
def create_hold_note_mesh (runner_speed : ℚ) (hold_note : HoldNote) : Option Mesh :=
  create_plane_mesh_from_points runner_speed hold_note.points HIT_X_LENGTH

/-- A per-object instance record (`PlatformInstance` in `track_description.rs`). -/
structure PlatformInstance where
  z_start_position : ℚ
  z_end_position : ℚ
  base_color : Color4
deriving DecidableEq

/-- Accumulator of the MOSV fold in `create_hold_notes`/`create_lanes`. -/
structure MosvAcc where
  vertices : List Vector3
  indices : List Nat
  objects : List PlatformInstance
  objects_indices : List Nat
deriving DecidableEq

/-- One iteration of the MOSV fold body: extend `objects_indices` with the
current object index once per mesh vertex, append the mesh vertices, append the
mesh indices re-based by `vertices.len() as u16` (u16 cast and addition, hence
the `% 65536`; an overflowing addition would panic in a debug build), and append
the object record. -/
def mosvAppend (acc : MosvAcc) (mesh : Mesh) (object : PlatformInstance) : MosvAcc :=
  { vertices := acc.vertices ++ mesh.vertices
    indices :=
      acc.indices ++ mesh.indices.map (fun i => (i + acc.vertices.length % 65536) % 65536)
    objects := acc.objects ++ [object]
    objects_indices :=
      acc.objects_indices ++ List.replicate mesh.vertices.length acc.objects.length }

/-- The MOSV fold over a list of already-built (mesh, object) pairs. -/
def mosvAccum (acc : MosvAcc) : List (Mesh × PlatformInstance) → MosvAcc
  | [] => acc
  | p :: ps => mosvAccum (mosvAppend acc p.1 p.2) ps

/-- `HoldNotesDescription` from `track_description.rs`. -/
structure HoldNotesDescription where
  objects : List PlatformInstance
  mesh : Mesh
  objects_indices : List Nat
deriving DecidableEq

/-- `LanesDescription` from `track_description.rs`. -/
structure LanesDescription where
  objects : List PlatformInstance
  mesh : Mesh
  objects_indices : List Nat
deriving DecidableEq

/-- The (mesh, object) pairs visited by the `create_hold_notes` fold, in order;
a panic inside mesh creation surfaces as `none`. -/
def holdMeshPairs (runner_speed : ℚ) : List HoldNote → Option (List (Mesh × PlatformInstance))
  | [] => some []
  | note :: rest =>
    match create_hold_note_mesh runner_speed note with
    | none => none
    | some mesh =>
      match holdMeshPairs runner_speed rest with
      | none => none
      | some pairs => some ((mesh, ⟨0, 0, get_base_color_hit note.ty⟩) :: pairs)

/-- The tail of `create_hold_notes`/`create_lanes` after the fold: the two
`assert_eq!` checks (the second one unwraps `objects_indices.last()`, panicking
on an empty accumulation) and the downward translation of the merged mesh. -/
def mosvFinish (acc : MosvAcc) : Option (Mesh × List PlatformInstance × List Nat) :=
  if acc.vertices.length = acc.objects_indices.length then
    match acc.objects_indices.getLast? with
    | none => none
    | some last =>
      if last = acc.objects.length - 1 then
        some (Mesh.transform_translate ⟨acc.vertices, acc.indices⟩ ⟨0, -(1/200), 0⟩,
          acc.objects, acc.objects_indices)
      else none
  else none

/-- `TrackDescriptionCreator::create_hold_notes`. -/
def create_hold_notes (runner_speed : ℚ) (hold_notes : List HoldNote) :
    Option HoldNotesDescription :=
  match holdMeshPairs runner_speed hold_notes with
  | none => none
  | some pairs =>
    match mosvFinish (mosvAccum ⟨[], [], [], []⟩ pairs) with
    | none => none
    | some r => some ⟨r.2.1, r.1, r.2.2⟩

/-- The (mesh, object) pairs visited for one lane group in `create_lanes`; lanes
of the enemy type `LaneType(4)` are skipped. The lane plane width is 0.04. -/
def laneGroupPairs (runner_speed : ℚ) (lane_type : LaneType) :
    List Lane → Option (List (Mesh × PlatformInstance))
  | [] => some []
  | lane :: rest =>
    if lane_type = ⟨4⟩ then laneGroupPairs runner_speed lane_type rest
    else
      match create_plane_mesh_from_points runner_speed lane.points (1/25) with
      | none => none
      | some mesh =>
        match laneGroupPairs runner_speed lane_type rest with
        | none => none
        | some pairs => some ((mesh, ⟨0, 0, get_base_color_lane lane_type⟩) :: pairs)

/-- The (mesh, object) pairs visited by the `create_lanes` fold over the lane
map, in iteration order of the map entries. -/
def lanesMeshPairs (runner_speed : ℚ) :
    List (LaneType × List Lane) → Option (List (Mesh × PlatformInstance))
  | [] => some []
  | g :: rest =>
    match laneGroupPairs runner_speed g.1 g.2 with
    | none => none
    | some these =>
      match lanesMeshPairs runner_speed rest with
      | none => none
      | some those => some (these ++ those)

/-- `TrackDescriptionCreator::create_lanes`. -/
def create_lanes (runner_speed : ℚ) (lanes : List (LaneType × List Lane)) :
    Option LanesDescription :=
  match lanesMeshPairs runner_speed lanes with
  | none => none
  | some pairs =>
    match mosvFinish (mosvAccum ⟨[], [], [], []⟩ pairs) with
    | none => none
    | some r => some ⟨r.2.1, r.1, r.2.2⟩

/-- The merged vertex stream the fold produces, described directly: the
concatenation of the per-object mesh vertices. -/
def mosvVerticesSpec (pairs : List (Mesh × PlatformInstance)) : List Vector3 :=
  List.flatten (pairs.map (fun p => p.1.vertices))

/-- The per-vertex object-index stream, described directly: object `j` (counting
from `first_object_index`) contributes its index once per vertex of its mesh. -/
def mosvObjectsIndicesSpec (first_object_index : Nat) :
    List (Mesh × PlatformInstance) → List Nat
  | [] => []
  | p :: ps =>
    List.replicate p.1.vertices.length first_object_index ++
      mosvObjectsIndicesSpec (first_object_index + 1) ps

/-- The merged index stream with the u16 re-basing the code performs, described
directly with a running vertex-count offset. -/
def mosvIndicesSpec (offset : Nat) : List (Mesh × PlatformInstance) → List Nat
  | [] => []
  | p :: ps =>
    p.1.indices.map (fun i => (i + offset % 65536) % 65536) ++
      mosvIndicesSpec (offset + p.1.vertices.length) ps

/-- The merged index stream re-based by the exact (untruncated) running
vertex-count offset, as the claim words it. -/
def mosvExactIndicesSpec (offset : Nat) : List (Mesh × PlatformInstance) → List Nat
  | [] => []
  | p :: ps =>
    p.1.indices.map (fun i => i + offset) ++
      mosvExactIndicesSpec (offset + p.1.vertices.length) ps

/-! Section 5: `eclale/src/renderer/track_renderer.rs` — the per-frame evade
note update. -/

/-- A 2-component vector (`nalgebra::Vector2<f32>`), used for positions in the
xz plane (`y` holds the z coordinate). -/
structure Vector2 where
  x : ℚ
  y : ℚ
deriving DecidableEq

/-- `EvadeNoteInstance` from `track_description.rs`. -/
structure EvadeNoteInstance where
  start_position : Vector2
  end_position : Vector2
  base_color : Color4
  trigger_time : ℚ
  duration : ℚ
deriving DecidableEq

/-- The position selected for one evade note at `current_time` by the branch in
`TrackRenderer::update_evade_notes`: start before the trigger, end after
`trigger_time + duration`, and the linear interpolation
`start + t * (end - start)` with `t = (current_time - trigger_time) / duration`
in between (computed componentwise by the nalgebra vector operations). -/
def evadeNotePosition (note : EvadeNoteInstance) (current_time : ℚ) : Vector2 :=
  if current_time < note.trigger_time then
    note.start_position
  else if current_time > note.trigger_time + note.duration then
    note.end_position
  else
    ⟨note.start_position.x +
        ((current_time - note.trigger_time) / note.duration) *
          (note.end_position.x - note.start_position.x),
      note.start_position.y +
        ((current_time - note.trigger_time) / note.duration) *
          (note.end_position.y - note.start_position.y)⟩

/-- The condition under which `update_evade_notes` evaluates the branch that
divides by `note.duration`: neither of the two guards fires. -/
def evadeDivisionReached (note : EvadeNoteInstance) (current_time : ℚ) : Prop :=
  ¬ current_time < note.trigger_time ∧
    ¬ current_time > note.trigger_time + note.duration

instance (note : EvadeNoteInstance) (current_time : ℚ) :
    Decidable (evadeDivisionReached note current_time) :=
  inferInstanceAs (Decidable (_ ∧ _))

/-- The loop of `update_evade_notes` over the instance array: entry `i` of the
GPU instance array receives the translation `(position.x, 0, position.y)`
computed from note `i` and `current_time` alone (the previous transforms are
overwritten, never read). Indexing past the GPU array panics (`none`); entries
beyond the note list keep their old value. -/
def updateEvadeNoteTransforms (notes : List EvadeNoteInstance)
    (old_transforms : List Vector3) (current_time : ℚ) : Option (List Vector3) :=
  if notes.length ≤ old_transforms.length then
    some ((notes.map (fun note =>
        ⟨(evadeNotePosition note current_time).x, 0,
          (evadeNotePosition note current_time).y⟩)) ++
      old_transforms.drop notes.length)
  else none

/-! Section 6: `eclale_graphics/src/renderer/mod.rs` and
`eclale_graphics/src/vulkan/resource.rs` — the instance-data update path. -/

/-- `Buffer` from `vulkan/resource.rs`: a size in bytes and, when the buffer is
CPU-mapped, its mapped byte region. -/
structure Buffer where
  size : Nat
  allocation : Option (List Nat)
deriving DecidableEq

/-- `Buffer::write_data`: unwraps the mapped allocation (a missing allocation
panics, `none`) and copies all of `data` at the mapped pointer, returning
`Ok(())` unconditionally; the buffer size field is never compared against the
data length, so a longer slice writes past the buffer region and a shorter one
silently leaves a suffix. The write result is the updated mapped region. -/
def Buffer.write_data (buffer : Buffer) (data : List Nat) :
    Option (Except Unit (List Nat)) :=
  match buffer.allocation with
  | none => none
  | some mapped => some (Except.ok (data ++ mapped.drop data.length))

/-- `InstancedRenderer` (only the instance storage buffer is relevant here). -/
structure InstancedRenderer where
  storage_buffer_instances : Buffer
deriving DecidableEq

/-- Modelled from the spec: `InstancedRenderer::update_instance_gpu_data` is
called by `Renderer::update_instanced_renderer_instance_gpu_data` but its body
is absent from the sources (only the caller and the buffer primitive
`Buffer::write_data` are present). Per spec section 6 the call replaces the
instance-attribute region of the draw unit, which the present code realizes as a
`write_data` into the instance storage buffer of the unit; no length check
exists anywhere on the present path. -/
def InstancedRenderer.update_instance_gpu_data (renderer : InstancedRenderer)
    (data : List Nat) : Option (Except Unit (List Nat)) :=
  renderer.storage_buffer_instances.write_data data

/-- `Renderer` (only the instanced-renderer array is relevant here). -/
structure Renderer where
  instanced_renderers : List InstancedRenderer
deriving DecidableEq

/-- `Renderer::update_instanced_renderer_instance_gpu_data`: index into the
instanced-renderer array (an out-of-range index panics) and delegate. -/
def Renderer.update_instanced_renderer_instance_gpu_data (renderer : Renderer)
    (renderer_index : Nat) (data : List Nat) : Option (Except Unit (List Nat)) :=
  match renderer.instanced_renderers.get? renderer_index with
  | none => none
  | some ir => ir.update_instance_gpu_data data

/-! Section 7: concrete sample inputs used by witnesses and counterexamples. -/

/-- Two identical 4/4, 120 BPM, subdivision-4 measures. -/
def sampleComps : List MeasureCompositionData :=
  [⟨⟨4, 4⟩, 120, 1, 4⟩, ⟨⟨4, 4⟩, 120, 1, 4⟩]

/-- Calculator over `sampleComps` with audio offset 0 and base z speed 1. -/
def sampleCalc : ZPositionCalculator :=
  ZPositionCalculator.new sampleComps 0 1

/-- The measure entry the fold produces at index 0 of `sampleCalc`. -/
def sampleMd0 : MeasureData :=
  ⟨⟨⟨4, 4⟩, 120, 1, 4⟩, ⟨⟨0, 0⟩, ⟨2, 2⟩⟩⟩

/-- The measure entry the fold produces at index 1 of `sampleCalc`. -/
def sampleMd1 : MeasureData :=
  ⟨⟨⟨4, 4⟩, 120, 1, 4⟩, ⟨⟨2, 2⟩, ⟨2, 2⟩⟩⟩

/-- Calculator over `sampleComps` with a negative base z speed. -/
def c4NegCalc : ZPositionCalculator :=
  ZPositionCalculator.new sampleComps 0 (-1)

/-- A starting composition for the timeline-construction samples. -/
def c3StartComp : MeasureCompositionData :=
  ⟨⟨4, 4⟩, 120, 1, 4⟩

/-- A boundary side of 32770 vertices (vertex count 65540 after weaving, whose
`as u16` cast truncates to 4). -/
def c5BigSide : List Vector3 :=
  List.replicate 32770 default

/-- A small boundary side of 3 vertices. -/
def c5SmallSideA : List Vector3 :=
  [⟨0, 0, 0⟩, ⟨0, 0, 1⟩, ⟨0, 0, 2⟩]

/-- A small boundary side of 2 vertices. -/
def c5SmallSideB : List Vector3 :=
  [⟨1, 0, 0⟩, ⟨1, 0, 2⟩]

/-- A hold note with 32769 points; its strip mesh has 65538 vertices, so the
running vertex-count offset recorded after it truncates to 2 in `u16`. -/
def c6BigNote : HoldNote :=
  ⟨⟨0⟩, List.replicate 32769 ⟨0, 0, 0⟩⟩

/-- A hold note with 3 points (6-vertex, 12-index strip mesh). -/
def c6SmallNote : HoldNote :=
  ⟨⟨0⟩, [⟨0, 0, 0⟩, ⟨0, 1, 0⟩, ⟨0, 2, 0⟩]⟩

/-- A hold note with 2 points (4-vertex, 6-index strip mesh). -/
def c6TinyNote : HoldNote :=
  ⟨⟨0⟩, [⟨0, 0, 0⟩, ⟨0, 1, 0⟩]⟩

/-- A lane with 2 points. -/
def c9Lane : Lane :=
  ⟨[⟨0, 0, 0⟩, ⟨0, 1, 0⟩]⟩

/-- The P6 evade note: trigger 2.0, duration 1.0, start (0,0), end (10,10). -/
def c7Note : EvadeNoteInstance :=
  ⟨⟨0, 0⟩, ⟨10, 10⟩, ⟨6/10, 2/10, 9/10, 1⟩, 2, 1⟩

/-- An evade note with zero duration. -/
def c10Note : EvadeNoteInstance :=
  ⟨⟨0, 0⟩, ⟨10, 10⟩, ⟨6/10, 2/10, 9/10, 1⟩, 2, 0⟩

/-- A renderer with one draw unit whose instance buffer is 4 bytes large and
mapped to 4 zero bytes. -/
def c8Renderer : Renderer :=
  ⟨[⟨⟨4, some [0, 0, 0, 0]⟩⟩]⟩

/-- Per-mesh facts needed by the MOSV invariants, shared by the hold-note and
lane builders: at least 4 vertices, an even vertex count, and every index in
range. -/
def MeshOk (mesh : Mesh) : Prop :=
  4 ≤ mesh.vertices.length ∧ mesh.vertices.length % 2 = 0 ∧
    ∀ i ∈ mesh.indices, i < mesh.vertices.length

/-- The object record every hold note of raw type 0 produces. -/
def c6HoldInstance : PlatformInstance :=
  ⟨0, 0, ⟨1, 0, 1, 1⟩⟩

/-- The strip mesh of `c6TinyNote` (before the downward translation). -/
def c6TinyMesh : Mesh :=
  ⟨[⟨-(1/8), 0, 0⟩, ⟨1/8, 0, 0⟩, ⟨-(1/8), 0, 1⟩, ⟨1/8, 0, 1⟩],
    [0, 1, 2, 1, 2, 3]⟩

/-- The hold-note description built from `[c6TinyNote]` at runner speed 1. -/
def c6TinyDesc : HoldNotesDescription :=
  ⟨[c6HoldInstance],
    ⟨[⟨-(1/8), -(1/200), 0⟩, ⟨1/8, -(1/200), 0⟩, ⟨-(1/8), -(1/200), 1⟩, ⟨1/8, -(1/200), 1⟩],
      [0, 1, 2, 1, 2, 3]⟩,
    [0, 0, 0, 0]⟩

/-- The strip mesh of `c6SmallNote` (before the downward translation). -/
def c6SmallMesh : Mesh :=
  ⟨[⟨-(1/8), 0, 0⟩, ⟨1/8, 0, 0⟩, ⟨-(1/8), 0, 1⟩, ⟨1/8, 0, 1⟩, ⟨-(1/8), 0, 2⟩, ⟨1/8, 0, 2⟩],
    [0, 1, 2, 1, 2, 3, 2, 3, 4, 3, 4, 5]⟩

/-- The left boundary side of the strip mesh of `c6BigNote` at runner speed 1. -/
def c6BigLeft : List Vector3 :=
  (track_position_to_xz_vertices 1 c6BigNote.points).map
    (fun point => ⟨point.x - HIT_X_LENGTH / 2, point.y, point.z⟩)

/-- The right boundary side of the strip mesh of `c6BigNote` at runner speed 1. -/
def c6BigRight : List Vector3 :=
  (track_position_to_xz_vertices 1 c6BigNote.points).map
    (fun point => ⟨point.x + HIT_X_LENGTH / 2, point.y, point.z⟩)

/-- The strip mesh of `c6BigNote`: 65538 vertices, and an empty index list
(the `as u16` cast of the vertex count is 2, so the index loop runs zero
steps). -/
def c6BigMesh : Mesh :=
  ⟨buildStripVertices c6BigLeft c6BigRight, []⟩

/-! Helper lemmas about the measure fold. -/

theorem buildMeasures_entry (z_base_speed : ℚ) :
    ∀ (comps : List MeasureCompositionData) (start : ZPosition) (i : Nat) (md : MeasureData),
      (buildMeasures z_base_speed start comps).get? i = some md →
      comps.get? i = some md.composition ∧
      md.position.duration.time = measureTimeDuration md.composition ∧
      md.position.duration.z = measureTimeDuration md.composition * z_base_speed := by
  intro comps
  induction comps with
  | nil => intro start i md h; simp [buildMeasures] at h
  | cons m rest ih =>
    intro start i md h
    cases i with
    | zero =>
      simp only [buildMeasures, List.get?_cons_zero, Option.some.injEq] at h
      subst h
      exact ⟨rfl, rfl, rfl⟩
    | succ n =>
      simp only [buildMeasures, List.get?_cons_succ] at h ⊢
      exact ih _ n md h

theorem buildMeasures_head_offset (z_base_speed : ℚ) :
    ∀ (comps : List MeasureCompositionData) (start : ZPosition) (md : MeasureData),
      (buildMeasures z_base_speed start comps).get? 0 = some md →
      md.position.offset = start := by
  intro comps start md h
  cases comps with
  | nil => simp [buildMeasures] at h
  | cons m rest =>
    simp only [buildMeasures, List.get?_cons_zero, Option.some.injEq] at h
    subst h
    rfl

theorem buildMeasures_offset_step (z_base_speed : ℚ) :
    ∀ (comps : List MeasureCompositionData) (start : ZPosition) (i : Nat)
      (mdi mdj : MeasureData),
      (buildMeasures z_base_speed start comps).get? i = some mdi →
      (buildMeasures z_base_speed start comps).get? (i + 1) = some mdj →
      mdj.position.offset.time = mdi.position.offset.time + mdi.position.duration.time ∧
      mdj.position.offset.z = mdi.position.offset.z + mdi.position.duration.z := by
  intro comps
  induction comps with
  | nil => intro start i mdi mdj hi hj; simp [buildMeasures] at hi
  | cons m rest ih =>
    intro start i mdi mdj hi hj
    cases i with
    | zero =>
      simp only [buildMeasures, List.get?_cons_zero, Option.some.injEq] at hi
      subst hi
      simp only [buildMeasures, List.get?_cons_succ] at hj
      have hoff := buildMeasures_head_offset z_base_speed rest _ mdj hj
      rw [hoff]
      exact ⟨rfl, rfl⟩
    | succ n =>
      simp only [buildMeasures, List.get?_cons_succ] at hi hj
      exact ih _ n mdi mdj hi hj

/-- C1: for every constructed timeline and measure index `m` in range,
`z_position_at(m, tick)` returns
`time_offset[m] + ((tick - 1) / subdivision[m]) * time_duration[m]` on the time
axis and the same combination of `depth_offset`/`depth_duration` on the z axis;
in particular tick 1 lands exactly on the measure start and tick
`subdivision + 1` lands exactly on `time_offset + time_duration` (the start of
the next measure). -/
theorem c1_z_position_at_formula (c : ZPositionCalculator) (m : Nat) (md : MeasureData)
    (tick : ℚ) (hm : c.measures.get? m = some md)
    (hsub : 0 < md.composition.subdivision) :
    c.z_position_at m tick =
      some ⟨md.position.offset.time +
          ((tick - 1) / (md.composition.subdivision : ℚ)) * md.position.duration.time,
        md.position.offset.z +
          ((tick - 1) / (md.composition.subdivision : ℚ)) * md.position.duration.z⟩ ∧
    (c.z_position_at m 1).map ZPosition.time = some md.position.offset.time ∧
    (c.z_position_at m ((md.composition.subdivision : ℚ) + 1)).map ZPosition.time =
      some (md.position.offset.time + md.position.duration.time) := by
  have hformula : ∀ t : ℚ, c.z_position_at m t =
      some ⟨md.position.offset.time +
          ((t - 1) / (md.composition.subdivision : ℚ)) * md.position.duration.time,
        md.position.offset.z +
          ((t - 1) / (md.composition.subdivision : ℚ)) * md.position.duration.z⟩ := by
    intro t
    unfold ZPositionCalculator.z_position_at
    rw [hm]
  refine ⟨hformula tick, ?_, ?_⟩
  · rw [hformula 1]
    simp
  · rw [hformula ((md.composition.subdivision : ℚ) + 1)]
    have hs : (md.composition.subdivision : ℚ) ≠ 0 :=
      Nat.cast_ne_zero.mpr hsub.ne'
    simp [div_self hs]

/-- C1 witness: the formula evaluated on a concrete two-measure calculator. -/
theorem c1_witness :
    sampleCalc.measures.get? 0 = some sampleMd0 ∧
    0 < sampleMd0.composition.subdivision ∧
    sampleCalc.z_position_at 0 3 = some ⟨1, 1⟩ ∧
    (sampleCalc.z_position_at 0 1).map ZPosition.time = some 0 ∧
    (sampleCalc.z_position_at 0 ((sampleMd0.composition.subdivision : ℚ) + 1)).map
      ZPosition.time = some 2 := by
  have hget : sampleCalc.measures.get? 0 = some sampleMd0 := by
    norm_num [sampleCalc, sampleComps, sampleMd0, ZPositionCalculator.new, buildMeasures]
  have h := c1_z_position_at_formula sampleCalc 0 sampleMd0 3 hget (by decide)
  refine ⟨hget, by decide, ?_, ?_, ?_⟩
  · rw [h.1]; norm_num [sampleMd0]
  · rw [h.2.1]; norm_num [sampleMd0]
  · rw [h.2.2]; norm_num [sampleMd0]

/-- C2: `ZPositionCalculator::new` folds the compositions so that every measure
entry keeps its composition, its time duration is
`num_beats * (60 / bpm) * (4 / note_value)`, its depth duration is the same
quantity times `z_base_speed` (the per-measure scroll-speed multiplier enters
neither formula), consecutive offsets satisfy
`offset[i+1] = offset[i] + duration[i]` on both axes, and measure 0 is seeded
with `(music_offset, music_offset * z_base_speed)`. -/
theorem c2_new_measure_fold (comps : List MeasureCompositionData)
    (music_offset z_base_speed : ℚ) :
    (∀ i md,
        (ZPositionCalculator.new comps music_offset z_base_speed).measures.get? i = some md →
        comps.get? i = some md.composition ∧
        md.position.duration.time = measureTimeDuration md.composition ∧
        md.position.duration.z = measureTimeDuration md.composition * z_base_speed) ∧
    (∀ i mdi mdj,
        (ZPositionCalculator.new comps music_offset z_base_speed).measures.get? i = some mdi →
        (ZPositionCalculator.new comps music_offset z_base_speed).measures.get? (i + 1) =
          some mdj →
        mdj.position.offset.time = mdi.position.offset.time + mdi.position.duration.time ∧
        mdj.position.offset.z = mdi.position.offset.z + mdi.position.duration.z) ∧
    (∀ md,
        (ZPositionCalculator.new comps music_offset z_base_speed).measures.get? 0 = some md →
        md.position.offset = ⟨music_offset, music_offset * z_base_speed⟩) := by
  refine ⟨?_, ?_, ?_⟩
  · intro i md h
    exact buildMeasures_entry z_base_speed comps _ i md h
  · intro i mdi mdj hi hj
    exact buildMeasures_offset_step z_base_speed comps _ i mdi mdj hi hj
  · intro md h
    exact buildMeasures_head_offset z_base_speed comps _ md h

/-- C2 witness: the fold evaluated on a concrete two-measure input. -/
theorem c2_witness :
    sampleCalc.measures.get? 0 = some sampleMd0 ∧
    sampleCalc.measures.get? 1 = some sampleMd1 ∧
    sampleMd0.position.duration.time = measureTimeDuration sampleMd0.composition ∧
    sampleMd1.position.offset.time =
      sampleMd0.position.offset.time + sampleMd0.position.duration.time ∧
    sampleMd1.position.offset.z =
      sampleMd0.position.offset.z + sampleMd0.position.duration.z ∧
    sampleMd0.position.offset = ⟨0, 0 * 1⟩ := by
  have h := c2_new_measure_fold sampleComps 0 1
  have h0 : (ZPositionCalculator.new sampleComps 0 1).measures.get? 0 = some sampleMd0 := by
    norm_num [sampleComps, sampleMd0, ZPositionCalculator.new, buildMeasures]
  have h1 : (ZPositionCalculator.new sampleComps 0 1).measures.get? 1 = some sampleMd1 := by
    norm_num [sampleComps, sampleMd1, ZPositionCalculator.new, buildMeasures]
  obtain ⟨ht, hz⟩ := h.2.1 0 sampleMd0 sampleMd1 h0 h1
  exact ⟨h0, h1, (h.1 0 sampleMd0 h0).2.1, ht, hz, h.2.2 sampleMd0 h0⟩

/-- C4 counterexample: with all of `bpm`, `num_beats`, `note_value` positive in
every composition but a negative base z speed, the depth offsets decrease from
measure 0 (depth 0) to measure 1 (depth -2), refuting the claim as stated. -/
theorem c4_counterexample :
    sampleComps.all (fun mc =>
      decide (0 < mc.bpm) && decide (0 < mc.time_signature.num_beats) &&
        decide (0 < mc.time_signature.note_value)) = true ∧
    (c4NegCalc.measures.get? 0).map (fun md => md.position.offset.z) = some 0 ∧
    (c4NegCalc.measures.get? 1).map (fun md => md.position.offset.z) = some (-2) ∧
    ¬ ((0 : ℚ) ≤ -2) := by
  refine ⟨by decide, ?_, ?_, by norm_num⟩
  · norm_num [c4NegCalc, sampleComps, ZPositionCalculator.new, buildMeasures]
  · norm_num [c4NegCalc, sampleComps, ZPositionCalculator.new, buildMeasures]

/-- C4 (amended): given positive `bpm`, `num_beats` and `note_value` for every
composition, consecutive time offsets are monotone, and consecutive depth
offsets are monotone provided additionally `z_base_speed ≥ 0` (a negative base
depth speed reverses the depth axis, as the counterexample shows). -/
theorem c4_amended_offsets_monotone (comps : List MeasureCompositionData)
    (music_offset z_base_speed : ℚ)
    (hpos : ∀ mc ∈ comps,
      0 < mc.bpm ∧ 0 < mc.time_signature.num_beats ∧ 0 < mc.time_signature.note_value) :
    ∀ i mdi mdj,
      (ZPositionCalculator.new comps music_offset z_base_speed).measures.get? i = some mdi →
      (ZPositionCalculator.new comps music_offset z_base_speed).measures.get? (i + 1) =
        some mdj →
      mdi.position.offset.time ≤ mdj.position.offset.time ∧
      (0 ≤ z_base_speed → mdi.position.offset.z ≤ mdj.position.offset.z) := by
  intro i mdi mdj hi hj
  obtain ⟨ht, hz⟩ := buildMeasures_offset_step z_base_speed comps _ i mdi mdj hi hj
  obtain ⟨hc, hdt, hdz⟩ := buildMeasures_entry z_base_speed comps _ i mdi hi
  have hdur : 0 ≤ measureTimeDuration mdi.composition := by
    unfold measureTimeDuration
    positivity
  constructor
  · rw [ht, hdt]
    linarith
  · intro hzbs
    rw [hz, hdz]
    have := mul_nonneg hdur hzbs
    linarith

/-- C4 (amended) witness: monotone offsets on a concrete positive timeline. -/
theorem c4_witness :
    sampleCalc.measures.get? 0 = some sampleMd0 ∧
    sampleCalc.measures.get? 1 = some sampleMd1 ∧
    sampleMd0.position.offset.time ≤ sampleMd1.position.offset.time ∧
    sampleMd0.position.offset.z ≤ sampleMd1.position.offset.z := by
  have h0 : (ZPositionCalculator.new sampleComps 0 1).measures.get? 0 = some sampleMd0 := by
    norm_num [sampleComps, sampleMd0, ZPositionCalculator.new, buildMeasures]
  have h1 : (ZPositionCalculator.new sampleComps 0 1).measures.get? (0 + 1) = some sampleMd1 := by
    norm_num [sampleComps, sampleMd1, ZPositionCalculator.new, buildMeasures]
  have h := c4_amended_offsets_monotone sampleComps 0 1 (by decide) 0 sampleMd0 sampleMd1 h0 h1
  exact ⟨h0, h1, h.1, h.2 (by norm_num)⟩

/-! Helper lemmas about the timeline-construction loop: each of the three apply
steps touches only its own field. -/

theorem applyBpmChange_time_signature (measure_index : Nat) (cur : MeasureCompositionData)
    (changes : List (TimingPoint × OgkrBpmChange)) :
    (applyBpmChange measure_index cur changes).1.time_signature = cur.time_signature := by
  rcases changes with _ | ⟨⟨tp, ch⟩, rest⟩
  · rfl
  · simp only [applyBpmChange]
    split <;> rfl

theorem applyBpmChange_speed_multiplier (measure_index : Nat) (cur : MeasureCompositionData)
    (changes : List (TimingPoint × OgkrBpmChange)) :
    (applyBpmChange measure_index cur changes).1.speed_multiplier = cur.speed_multiplier := by
  rcases changes with _ | ⟨⟨tp, ch⟩, rest⟩
  · rfl
  · simp only [applyBpmChange]
    split <;> rfl

theorem applyMeterChange_bpm (measure_index : Nat) (cur : MeasureCompositionData)
    (changes : List (TimingPoint × OgkrMeterChange)) :
    (applyMeterChange measure_index cur changes).1.bpm = cur.bpm := by
  rcases changes with _ | ⟨⟨tp, ch⟩, rest⟩
  · rfl
  · simp only [applyMeterChange]
    split <;> rfl

theorem applyMeterChange_speed_multiplier (measure_index : Nat)
    (cur : MeasureCompositionData) (changes : List (TimingPoint × OgkrMeterChange)) :
    (applyMeterChange measure_index cur changes).1.speed_multiplier = cur.speed_multiplier := by
  rcases changes with _ | ⟨⟨tp, ch⟩, rest⟩
  · rfl
  · simp only [applyMeterChange]
    split <;> rfl

theorem applySoflan_bpm (measure_index : Nat) (cur : MeasureCompositionData)
    (changes : List (TimingPoint × OgkrSoflan)) :
    (applySoflan measure_index cur changes).1.bpm = cur.bpm := by
  rcases changes with _ | ⟨⟨tp, ch⟩, rest⟩
  · rfl
  · simp only [applySoflan]
    split <;> rfl

theorem applySoflan_time_signature (measure_index : Nat) (cur : MeasureCompositionData)
    (changes : List (TimingPoint × OgkrSoflan)) :
    (applySoflan measure_index cur changes).1.time_signature = cur.time_signature := by
  rcases changes with _ | ⟨⟨tp, ch⟩, rest⟩
  · rfl
  · simp only [applySoflan]
    split <;> rfl

theorem createMeasureCompositions_length :
    ∀ (n measure_index : Nat) (cur : MeasureCompositionData)
      (bpm_changes : List (TimingPoint × OgkrBpmChange))
      (meter_changes : List (TimingPoint × OgkrMeterChange))
      (soflans : List (TimingPoint × OgkrSoflan)),
      (createMeasureCompositions n measure_index cur bpm_changes meter_changes
        soflans).length = n := by
  intro n
  induction n with
  | zero => intro idx cur bs ms ss; rfl
  | succ n ih =>
    intro idx cur bs ms ss
    simp only [createMeasureCompositions, List.length_cons, ih]

/-- C3: the timeline loop over measure indices `0..N` produces exactly `N`
composition snapshots, one per measure; each step applies at most one pending
change from each of the three lists independently (a triggered head change
overwrites exactly its own field and advances exactly that cursor by one; a
non-triggered head leaves the composition field and the cursor untouched); and
when two same-kind changes are both already triggered, only the nearer
unconsumed one is applied in the current measure, the second taking effect at
the next measure. -/
theorem c3_one_change_per_list_per_measure :
    (∀ (n measure_index : Nat) (cur : MeasureCompositionData)
        (bs : List (TimingPoint × OgkrBpmChange))
        (ms : List (TimingPoint × OgkrMeterChange)) (ss : List (TimingPoint × OgkrSoflan)),
        (createMeasureCompositions n measure_index cur bs ms ss).length = n) ∧
    (∀ measure_index cur tp ch rest, tp.measure - 1 ≤ measure_index →
        applyBpmChange measure_index cur ((tp, ch) :: rest) =
          ({ cur with bpm := ch.bpm }, rest)) ∧
    (∀ measure_index cur tp ch rest, ¬ tp.measure - 1 ≤ measure_index →
        applyBpmChange measure_index cur ((tp, ch) :: rest) =
          (cur, (tp, ch) :: rest)) ∧
    (∀ measure_index cur tp ch rest, tp.measure - 1 ≤ measure_index →
        applyMeterChange measure_index cur ((tp, ch) :: rest) =
          ({ cur with time_signature := ⟨ch.num_beats, ch.note_value⟩ }, rest)) ∧
    (∀ measure_index cur tp ch rest, ¬ tp.measure - 1 ≤ measure_index →
        applyMeterChange measure_index cur ((tp, ch) :: rest) =
          (cur, (tp, ch) :: rest)) ∧
    (∀ measure_index cur tp ch rest, tp.measure - 1 ≤ measure_index →
        applySoflan measure_index cur ((tp, ch) :: rest) =
          ({ cur with speed_multiplier := ch.speed_multiplier }, rest)) ∧
    (∀ measure_index cur tp ch rest, ¬ tp.measure - 1 ≤ measure_index →
        applySoflan measure_index cur ((tp, ch) :: rest) =
          (cur, (tp, ch) :: rest)) ∧
    (∀ (n measure_index : Nat) (cur : MeasureCompositionData)
        (bs : List (TimingPoint × OgkrBpmChange))
        (ms : List (TimingPoint × OgkrMeterChange)) (ss : List (TimingPoint × OgkrSoflan)),
        createMeasureCompositions (n + 1) measure_index cur bs ms ss =
          (applySoflan measure_index
              (applyMeterChange measure_index (applyBpmChange measure_index cur bs).1 ms).1
              ss).1 ::
            createMeasureCompositions n (measure_index + 1)
              (applySoflan measure_index
                (applyMeterChange measure_index (applyBpmChange measure_index cur bs).1 ms).1
                ss).1
              (applyBpmChange measure_index cur bs).2
              (applyMeterChange measure_index (applyBpmChange measure_index cur bs).1 ms).2
              (applySoflan measure_index
                (applyMeterChange measure_index (applyBpmChange measure_index cur bs).1 ms).1
                ss).2) ∧
    (∀ (n measure_index : Nat) (cur : MeasureCompositionData) tp1 c1 tp2 c2 rest
        (ms : List (TimingPoint × OgkrMeterChange)) (ss : List (TimingPoint × OgkrSoflan)),
        tp1.measure - 1 ≤ measure_index → tp2.measure - 1 ≤ measure_index →
        ((createMeasureCompositions (n + 2) measure_index cur
              ((tp1, c1) :: (tp2, c2) :: rest) ms ss).get? 0).map
            (fun mc => mc.bpm) = some c1.bpm ∧
        ((createMeasureCompositions (n + 2) measure_index cur
              ((tp1, c1) :: (tp2, c2) :: rest) ms ss).get? 1).map
            (fun mc => mc.bpm) = some c2.bpm) ∧
    (∀ (n measure_index : Nat) (cur : MeasureCompositionData) tp1 c1 tp2 c2 rest
        (bs : List (TimingPoint × OgkrBpmChange)) (ss : List (TimingPoint × OgkrSoflan)),
        tp1.measure - 1 ≤ measure_index → tp2.measure - 1 ≤ measure_index →
        ((createMeasureCompositions (n + 2) measure_index cur bs
              ((tp1, c1) :: (tp2, c2) :: rest) ss).get? 0).map
            (fun mc => mc.time_signature) = some ⟨c1.num_beats, c1.note_value⟩ ∧
        ((createMeasureCompositions (n + 2) measure_index cur bs
              ((tp1, c1) :: (tp2, c2) :: rest) ss).get? 1).map
            (fun mc => mc.time_signature) = some ⟨c2.num_beats, c2.note_value⟩) ∧
    (∀ (n measure_index : Nat) (cur : MeasureCompositionData) tp1 c1 tp2 c2 rest
        (bs : List (TimingPoint × OgkrBpmChange)) (ms : List (TimingPoint × OgkrMeterChange)),
        tp1.measure - 1 ≤ measure_index → tp2.measure - 1 ≤ measure_index →
        ((createMeasureCompositions (n + 2) measure_index cur bs ms
              ((tp1, c1) :: (tp2, c2) :: rest)).get? 0).map
            (fun mc => mc.speed_multiplier) = some c1.speed_multiplier ∧
        ((createMeasureCompositions (n + 2) measure_index cur bs ms
              ((tp1, c1) :: (tp2, c2) :: rest)).get? 1).map
            (fun mc => mc.speed_multiplier) = some c2.speed_multiplier) := by
  refine ⟨createMeasureCompositions_length, ?_, ?_, ?_, ?_, ?_, ?_, ?_, ?_, ?_, ?_⟩
  · intro idx cur tp ch rest h
    simp only [applyBpmChange, if_pos h]
  · intro idx cur tp ch rest h
    simp only [applyBpmChange, if_neg h]
  · intro idx cur tp ch rest h
    simp only [applyMeterChange, if_pos h]
  · intro idx cur tp ch rest h
    simp only [applyMeterChange, if_neg h]
  · intro idx cur tp ch rest h
    simp only [applySoflan, if_pos h]
  · intro idx cur tp ch rest h
    simp only [applySoflan, if_neg h]
  · intro n idx cur bs ms ss
    rfl
  · intro n idx cur tp1 c1 tp2 c2 rest ms ss h1 h2
    have h2s : tp2.measure - 1 ≤ idx + 1 := h2.trans (Nat.le_succ idx)
    constructor
    · simp only [createMeasureCompositions, List.get?_cons_zero, Option.map_some']
      rw [applySoflan_bpm, applyMeterChange_bpm]
      simp only [applyBpmChange]
      rw [if_pos h1]
    · simp only [createMeasureCompositions, List.get?_cons_succ, List.get?_cons_zero,
        Option.map_some']
      rw [applySoflan_bpm, applyMeterChange_bpm]
      rw [show (applyBpmChange idx cur ((tp1, c1) :: (tp2, c2) :: rest)).2 =
        (tp2, c2) :: rest by simp only [applyBpmChange]; rw [if_pos h1]]
      simp only [applyBpmChange]
      rw [if_pos h2s]
  · intro n idx cur tp1 c1 tp2 c2 rest bs ss h1 h2
    have h2s : tp2.measure - 1 ≤ idx + 1 := h2.trans (Nat.le_succ idx)
    constructor
    · simp only [createMeasureCompositions, List.get?_cons_zero, Option.map_some']
      rw [applySoflan_time_signature]
      rw [show (applyMeterChange idx (applyBpmChange idx cur bs).1
        ((tp1, c1) :: (tp2, c2) :: rest)).1.time_signature =
          (⟨c1.num_beats, c1.note_value⟩ : TimeSignature) by
        simp only [applyMeterChange]; rw [if_pos h1]]
    · simp only [createMeasureCompositions, List.get?_cons_succ, List.get?_cons_zero,
        Option.map_some']
      rw [applySoflan_time_signature]
      rw [show (applyMeterChange idx (applyBpmChange idx cur bs).1
        ((tp1, c1) :: (tp2, c2) :: rest)).2 = (tp2, c2) :: rest by
        simp only [applyMeterChange]; rw [if_pos h1]]
      simp only [applyMeterChange]
      rw [if_pos h2s]
  · intro n idx cur tp1 c1 tp2 c2 rest bs ms h1 h2
    have h2s : tp2.measure - 1 ≤ idx + 1 := h2.trans (Nat.le_succ idx)
    constructor
    · simp only [createMeasureCompositions, List.get?_cons_zero, Option.map_some']
      simp only [applySoflan]
      rw [if_pos h1]
    · simp only [createMeasureCompositions, List.get?_cons_succ, List.get?_cons_zero,
        Option.map_some']
      rw [show (applySoflan idx (applyMeterChange idx (applyBpmChange idx cur bs).1 ms).1
        ((tp1, c1) :: (tp2, c2) :: rest)).2 = (tp2, c2) :: rest by
        simp only [applySoflan]; rw [if_pos h1]]
      simp only [applySoflan]
      rw [if_pos h2s]

/-- C3 witness: the loop evaluated on concrete inputs — two tempo changes both
triggered at measure index 0; the first applies at measure 0, the second only at
measure 1. -/
theorem c3_witness :
    (createMeasureCompositions 3 0 c3StartComp [] [] []).length = 3 ∧
    applyBpmChange 0 c3StartComp [(⟨1⟩, ⟨150⟩)] = ({ c3StartComp with bpm := 150 }, []) ∧
    applyBpmChange 0 c3StartComp [(⟨3⟩, ⟨150⟩)] = (c3StartComp, [(⟨3⟩, ⟨150⟩)]) ∧
    applyMeterChange 0 c3StartComp [(⟨1⟩, ⟨3, 4⟩)] =
      ({ c3StartComp with time_signature := ⟨3, 4⟩ }, []) ∧
    applyMeterChange 0 c3StartComp [(⟨3⟩, ⟨3, 4⟩)] = (c3StartComp, [(⟨3⟩, ⟨3, 4⟩)]) ∧
    applySoflan 0 c3StartComp [(⟨1⟩, ⟨2⟩)] =
      ({ c3StartComp with speed_multiplier := 2 }, []) ∧
    applySoflan 0 c3StartComp [(⟨3⟩, ⟨2⟩)] = (c3StartComp, [(⟨3⟩, ⟨2⟩)]) ∧
    ((createMeasureCompositions 2 0 c3StartComp [(⟨1⟩, ⟨150⟩), (⟨1⟩, ⟨180⟩)] [] []).get? 0).map
      (fun mc => mc.bpm) = some 150 ∧
    ((createMeasureCompositions 2 0 c3StartComp [(⟨1⟩, ⟨150⟩), (⟨1⟩, ⟨180⟩)] [] []).get? 1).map
      (fun mc => mc.bpm) = some 180 := by
  have h := c3_one_change_per_list_per_measure
  have hb := h.2.2.2.2.2.2.2.2.1 0 0 c3StartComp ⟨1⟩ ⟨150⟩ ⟨1⟩ ⟨180⟩ [] [] []
    (by decide) (by decide)
  exact ⟨h.1 3 0 c3StartComp [] [] [],
    h.2.1 0 c3StartComp ⟨1⟩ ⟨150⟩ [] (by decide),
    h.2.2.1 0 c3StartComp ⟨3⟩ ⟨150⟩ [] (by decide),
    h.2.2.2.1 0 c3StartComp ⟨1⟩ ⟨3, 4⟩ [] (by decide),
    h.2.2.2.2.1 0 c3StartComp ⟨3⟩ ⟨3, 4⟩ [] (by decide),
    h.2.2.2.2.2.1 0 c3StartComp ⟨1⟩ ⟨2⟩ [] (by decide),
    h.2.2.2.2.2.2.1 0 c3StartComp ⟨3⟩ ⟨2⟩ [] (by decide),
    hb.1, hb.2⟩

/-- C7: the per-frame evade update is a pure function of the note and the query
time: before the trigger it yields the start position, after
`trigger_time + duration` the end position (stated under the data-model
invariant `duration ≥ 0`, which orders the two guards), otherwise the linear
interpolation `start + ((t - trigger_time) / duration) * (end - start)` on both
axes; re-running the frame update at the same time leaves the transform array
unchanged (no accumulation); and the P6 instance (trigger 2, duration 1,
start (0,0), end (10,10)) yields start at time 1, end at time 3.5 and (5,5) at
time 2.5. -/
theorem c7_evade_note_update :
    (∀ (note : EvadeNoteInstance) (t : ℚ), t < note.trigger_time →
        evadeNotePosition note t = note.start_position) ∧
    (∀ (note : EvadeNoteInstance) (t : ℚ), 0 ≤ note.duration →
        t > note.trigger_time + note.duration →
        evadeNotePosition note t = note.end_position) ∧
    (∀ (note : EvadeNoteInstance) (t : ℚ), ¬ t < note.trigger_time →
        ¬ t > note.trigger_time + note.duration →
        evadeNotePosition note t =
          ⟨note.start_position.x + ((t - note.trigger_time) / note.duration) *
              (note.end_position.x - note.start_position.x),
            note.start_position.y + ((t - note.trigger_time) / note.duration) *
              (note.end_position.y - note.start_position.y)⟩) ∧
    (∀ (notes : List EvadeNoteInstance) (old ts : List Vector3) (t : ℚ),
        updateEvadeNoteTransforms notes old t = some ts →
        updateEvadeNoteTransforms notes ts t = some ts) ∧
    (evadeNotePosition c7Note 1 = ⟨0, 0⟩ ∧
      evadeNotePosition c7Note (7/2) = ⟨10, 10⟩ ∧
      evadeNotePosition c7Note (5/2) = ⟨5, 5⟩) := by
  refine ⟨?_, ?_, ?_, ?_, ?_, ?_, ?_⟩
  · intro note t h
    unfold evadeNotePosition
    rw [if_pos h]
  · intro note t hd h
    have hnl : ¬ t < note.trigger_time := by
      push_neg
      linarith
    unfold evadeNotePosition
    rw [if_neg hnl, if_pos h]
  · intro note t h1 h2
    unfold evadeNotePosition
    rw [if_neg h1, if_neg h2]
  · intro notes old ts t h
    unfold updateEvadeNoteTransforms at h ⊢
    by_cases hl : notes.length ≤ old.length
    · rw [if_pos hl] at h
      obtain rfl := Option.some.inj h
      have hmap : (notes.map (fun note =>
          (⟨(evadeNotePosition note t).x, 0, (evadeNotePosition note t).y⟩ : Vector3))).length =
          notes.length := List.length_map _ _
      have hlen : notes.length ≤ (notes.map (fun note =>
          (⟨(evadeNotePosition note t).x, 0, (evadeNotePosition note t).y⟩ : Vector3)) ++
            old.drop notes.length).length := by
        rw [List.length_append, hmap]
        omega
      rw [if_pos hlen]
      congr 1
      conv_lhs => rw [← hmap]
      rw [List.drop_left, hmap]
    · rw [if_neg hl] at h
      exact absurd h (by simp)
  · norm_num [evadeNotePosition, c7Note]
  · norm_num [evadeNotePosition, c7Note]
  · norm_num [evadeNotePosition, c7Note]

/-- C7 witness: the update applied at the P6 inputs, including one re-evaluation
of the frame update showing idempotence. -/
theorem c7_witness :
    evadeNotePosition c7Note 1 = c7Note.start_position ∧
    evadeNotePosition c7Note (7/2) = c7Note.end_position ∧
    evadeNotePosition c7Note (5/2) =
      ⟨c7Note.start_position.x + ((5/2 - c7Note.trigger_time) / c7Note.duration) *
          (c7Note.end_position.x - c7Note.start_position.x),
        c7Note.start_position.y + ((5/2 - c7Note.trigger_time) / c7Note.duration) *
          (c7Note.end_position.y - c7Note.start_position.y)⟩ ∧
    updateEvadeNoteTransforms [c7Note] [⟨9, 9, 9⟩] 1 = some [⟨0, 0, 0⟩] ∧
    updateEvadeNoteTransforms [c7Note] [⟨0, 0, 0⟩] 1 = some [⟨0, 0, 0⟩] := by
  have h := c7_evade_note_update
  have hfirst : updateEvadeNoteTransforms [c7Note] [⟨9, 9, 9⟩] 1 = some [⟨0, 0, 0⟩] := by
    norm_num [updateEvadeNoteTransforms, evadeNotePosition, c7Note]
  exact ⟨h.1 c7Note 1 (by norm_num [c7Note]),
    h.2.1 c7Note (7/2) (by norm_num [c7Note]) (by norm_num [c7Note]),
    h.2.2.1 c7Note (5/2) (by norm_num [c7Note]) (by norm_num [c7Note]),
    hfirst,
    h.2.2.2.1 [c7Note] [⟨9, 9, 9⟩] [⟨0, 0, 0⟩] 1 hfirst⟩

/-- C10: the division by `duration` in the evade update is evaluated exactly when
`trigger_time ≤ current_time ≤ trigger_time + duration` (the complement of the
two guards), in which case the interpolation branch runs; with `duration > 0`
the divisor is nonzero on that branch, but with `duration = 0` the query time
`current_time = trigger_time` still reaches the division with a zero divisor, so
`duration > 0` is a required implicit precondition. -/
theorem c10_division_guard :
    (∀ (note : EvadeNoteInstance) (t : ℚ),
        evadeDivisionReached note t ↔
          note.trigger_time ≤ t ∧ t ≤ note.trigger_time + note.duration) ∧
    (∀ (note : EvadeNoteInstance) (t : ℚ), evadeDivisionReached note t →
        evadeNotePosition note t =
          ⟨note.start_position.x + ((t - note.trigger_time) / note.duration) *
              (note.end_position.x - note.start_position.x),
            note.start_position.y + ((t - note.trigger_time) / note.duration) *
              (note.end_position.y - note.start_position.y)⟩) ∧
    (∀ (note : EvadeNoteInstance) (t : ℚ), 0 < note.duration →
        evadeDivisionReached note t → note.duration ≠ 0) ∧
    (∀ (note : EvadeNoteInstance), note.duration = 0 →
        evadeDivisionReached note note.trigger_time ∧ note.duration = 0) := by
  refine ⟨?_, ?_, ?_, ?_⟩
  · intro note t
    unfold evadeDivisionReached
    constructor
    · intro ⟨h1, h2⟩
      exact ⟨not_lt.mp h1, not_lt.mp h2⟩
    · intro ⟨h1, h2⟩
      exact ⟨not_lt.mpr h1, not_lt.mpr h2⟩
  · intro note t ⟨h1, h2⟩
    unfold evadeNotePosition
    rw [if_neg h1, if_neg h2]
  · intro note t hd _
    exact hd.ne'
  · intro note hd
    refine ⟨⟨lt_irrefl _, ?_⟩, hd⟩
    rw [hd, add_zero]
    exact lt_irrefl _

/-- C10 witness: a zero-duration note reaches the division branch with a zero
divisor at its own trigger time, while the P6 note (duration 1) has a nonzero
divisor whenever the branch is reached. -/
theorem c10_witness :
    (evadeDivisionReached c10Note c10Note.trigger_time ∧ c10Note.duration = 0) ∧
    (evadeDivisionReached c7Note (5/2) ↔
      c7Note.trigger_time ≤ 5/2 ∧ (5/2 : ℚ) ≤ c7Note.trigger_time + c7Note.duration) ∧
    c7Note.duration ≠ 0 := by
  have h := c10_division_guard
  refine ⟨h.2.2.2 c10Note rfl, h.1 c7Note (5/2), ?_⟩
  refine h.2.2.1 c7Note (5/2) (by norm_num [c7Note]) ?_
  rw [h.1 c7Note (5/2)]
  constructor <;> norm_num [c7Note]

/-- C8: the instance-data update path evaluated at a length-mismatched input.
The draw unit of `c8Renderer` has a 4-byte instance buffer; updating it with an
8-byte slice succeeds (`Ok`) and writes all 8 bytes — `Buffer::write_data`
copies `size_of_val(data)` bytes and returns `Ok(())` without ever comparing the
data length against the buffer size, so the call does not fail loudly as the
claim and spec require. -/
theorem c8_write_data_no_length_check :
    c8Renderer.update_instanced_renderer_instance_gpu_data 0 [1, 2, 3, 4, 5, 6, 7, 8] =
      some (Except.ok [1, 2, 3, 4, 5, 6, 7, 8]) ∧
    (c8Renderer.instanced_renderers.get? 0).map
      (fun ir => ir.storage_buffer_instances.size) = some 4 := by
  constructor <;> rfl

/-! Helper lemmas about the strip triangulation. -/

theorem interleave_length : ∀ (a b : List Vector3),
    (interleave a b).length = 2 * min a.length b.length := by
  intro a
  induction a with
  | nil => intro b; cases b <;> simp [interleave]
  | cons x xs ih =>
    intro b
    cases b with
    | nil => simp [interleave]
    | cons y ys =>
      simp only [interleave, List.length_cons, ih]
      omega

theorem pairTailLeft_length (v : Vector3) : ∀ (l : List Vector3),
    (pairTailLeft v l).length = 2 * l.length := by
  intro l
  induction l with
  | nil => rfl
  | cons x xs ih =>
    simp only [pairTailLeft, List.length_cons, ih]
    omega

theorem pairTailRight_length (v : Vector3) : ∀ (l : List Vector3),
    (pairTailRight v l).length = 2 * l.length := by
  intro l
  induction l with
  | nil => rfl
  | cons x xs ih =>
    simp only [pairTailRight, List.length_cons, ih]
    omega

theorem buildStripVertices_length (a b : List Vector3) :
    (buildStripVertices a b).length = 2 * max a.length b.length := by
  unfold buildStripVertices
  simp only [List.length_append, interleave_length, pairTailLeft_length,
    pairTailRight_length, List.length_drop]
  omega

theorem quadStripIndices_length : ∀ (s i : Nat), (quadStripIndices i s).length = 6 * s
  | 0, _ => rfl
  | s + 1, i => by
    simp only [quadStripIndices, List.length_cons, quadStripIndices_length s (i + 2)]
    omega

theorem stripIndices_length (n : Nat) : (stripIndices n).length = 6 * ((n - 2 + 1) / 2) :=
  quadStripIndices_length _ _

theorem quadStripIndices_eq_flatten : ∀ (s j0 : Nat),
    quadStripIndices (2 * j0) s =
      List.flatten ((List.range s).map (fun j =>
        [2 * (j0 + j), 2 * (j0 + j) + 1, 2 * (j0 + j) + 2,
          2 * (j0 + j) + 1, 2 * (j0 + j) + 2, 2 * (j0 + j) + 3]))
  | 0, _ => rfl
  | s + 1, j0 => by
    have ih := quadStripIndices_eq_flatten s (j0 + 1)
    rw [show 2 * (j0 + 1) = 2 * j0 + 2 by omega] at ih
    simp only [show ∀ j : Nat, j0 + 1 + j = j0 + (j + 1) from fun j => by omega] at ih
    simp only [List.range_succ_eq_map, List.map_cons, List.flatten_cons, List.map_map,
      Nat.add_zero]
    simp only [quadStripIndices, List.cons_append, List.nil_append]
    rw [ih]
    simp only [Function.comp_def, Nat.succ_eq_add_one]

theorem quadStripIndices_mem_lt : ∀ (s i v : Nat),
    v ∈ quadStripIndices i s → v < i + 2 * s + 2
  | 0, i, v => by simp [quadStripIndices]
  | s + 1, i, v => by
    intro h
    simp only [quadStripIndices, List.mem_cons] at h
    rcases h with rfl | rfl | rfl | rfl | rfl | rfl | h
    · omega
    · omega
    · omega
    · omega
    · omega
    · omega
    · have := quadStripIndices_mem_lt s (i + 2) v h
      omega

theorem stripIndices_mem_lt (n v : Nat) (h : v ∈ stripIndices n) (hn : n % 2 = 0) :
    v < n := by
  unfold stripIndices at h
  by_cases h3 : 3 ≤ n
  · have := quadStripIndices_mem_lt ((n - 2 + 1) / 2) 0 v h
    omega
  · have hsteps : (n - 2 + 1) / 2 = 0 := by omega
    rw [hsteps] at h
    simp [quadStripIndices] at h

theorem triangulate_eq_of (a b : List Vector3) (ha : 2 ≤ a.length % 65536)
    (hb : 2 ≤ b.length % 65536) (h4 : 4 ≤ (buildStripVertices a b).length)
    (he : (buildStripVertices a b).length % 2 = 0) :
    triangulate_from_two_sides a b =
      some ⟨buildStripVertices a b,
        stripIndices ((buildStripVertices a b).length % 65536)⟩ := by
  unfold triangulate_from_two_sides
  rw [if_pos ⟨ha, hb⟩, if_pos ⟨h4, he⟩]

/-- C5 counterexample: two equal boundary sides of length 32770 (well above the
bound 2 in the claim). The woven vertex list has 65540 entries, whose `as u16`
cast truncates to 4, so only one stride-2 step emits indices: the index list has
6 entries, not `6 * (L - 1) = 196614`, refuting the claim as stated. -/
theorem c5_counterexample :
    (triangulate_from_two_sides c5BigSide c5BigSide).map
      (fun p => (p.vertices.length, p.indices.length)) = some (65540, 6) ∧
    ¬ (6 = 6 * (c5BigSide.length - 1)) := by
  have hL : c5BigSide.length = 32770 := List.length_replicate 32770 default
  have hlen : (buildStripVertices c5BigSide c5BigSide).length = 65540 := by
    rw [buildStripVertices_length, hL]
    norm_num
  have ht := triangulate_eq_of c5BigSide c5BigSide
    (by rw [hL]; norm_num) (by rw [hL]; norm_num)
    (by rw [hlen]; norm_num) (by rw [hlen])
  rw [ht]
  constructor
  · simp only [Option.map_some']
    rw [hlen, show (65540 : Nat) % 65536 = 4 from by norm_num, stripIndices_length]
  · rw [hL]
    norm_num

/-- C5 (amended): for boundary sides of lengths `La, Lb ≥ 2` with
`2 * max(La, Lb) ≤ 65535` (the merged vertex count must fit the `u16` index
arithmetic; larger inputs truncate through the `as u16` casts, as the
counterexample shows), `triangulate_from_two_sides` succeeds with a vertex list
of even length `2 * max(La, Lb) ≥ 4`, and an index list that emits, for each
stride-2 step `i = 2 * j` with `j < max(La, Lb) - 1`, the two triangles
`(i, i+1, i+2)` and `(i+1, i+2, i+3)`; in particular the index count is
`6 * (max(La, Lb) - 1)`, which for equal-length inputs of length `L` is
`6 * (L - 1)` with `2 * L` vertices. -/
theorem c5_amended_strip_triangulation (a b : List Vector3) (ha : 2 ≤ a.length)
    (hb : 2 ≤ b.length) (hsize : 2 * max a.length b.length ≤ 65535) :
    triangulate_from_two_sides a b =
      some ⟨buildStripVertices a b, stripIndices (2 * max a.length b.length)⟩ ∧
    (buildStripVertices a b).length = 2 * max a.length b.length ∧
    4 ≤ (buildStripVertices a b).length ∧
    (buildStripVertices a b).length % 2 = 0 ∧
    stripIndices (2 * max a.length b.length) =
      List.flatten ((List.range (max a.length b.length - 1)).map (fun j =>
        [2 * j, 2 * j + 1, 2 * j + 2, 2 * j + 1, 2 * j + 2, 2 * j + 3])) ∧
    (stripIndices (2 * max a.length b.length)).length =
      6 * (max a.length b.length - 1) := by
  have hlen := buildStripVertices_length a b
  have hmax : 2 ≤ max a.length b.length := ha.trans (le_max_left _ _)
  have h4 : 4 ≤ (buildStripVertices a b).length := by omega
  have he : (buildStripVertices a b).length % 2 = 0 := by omega
  have hmod : (buildStripVertices a b).length % 65536 = 2 * max a.length b.length := by
    rw [hlen]
    exact Nat.mod_eq_of_lt (by omega)
  refine ⟨?_, hlen, h4, he, ?_, ?_⟩
  · rw [triangulate_eq_of a b ?_ ?_ h4 he, hmod]
    · rw [Nat.mod_eq_of_lt (show a.length < 65536 by omega)]
      exact ha
    · rw [Nat.mod_eq_of_lt (show b.length < 65536 by omega)]
      exact hb
  · unfold stripIndices
    rw [show (2 * max a.length b.length - 2 + 1) / 2 = max a.length b.length - 1 by omega]
    have := quadStripIndices_eq_flatten (max a.length b.length - 1) 0
    simpa using this
  · rw [stripIndices_length]
    omega

/-- C5 (amended) witness: the triangulation of a 3-point side against a 2-point
side, with 6 vertices and 12 indices. -/
theorem c5_witness :
    triangulate_from_two_sides c5SmallSideA c5SmallSideB =
      some ⟨buildStripVertices c5SmallSideA c5SmallSideB,
        stripIndices (2 * max c5SmallSideA.length c5SmallSideB.length)⟩ ∧
    (buildStripVertices c5SmallSideA c5SmallSideB).length = 6 ∧
    (stripIndices (2 * max c5SmallSideA.length c5SmallSideB.length)).length = 12 := by
  have h := c5_amended_strip_triangulation c5SmallSideA c5SmallSideB
    (by decide) (by decide) (by decide)
  refine ⟨h.1, ?_, ?_⟩
  · rw [h.2.1]
    decide
  · rw [h.2.2.2.2.2]
    decide

/-! Helper lemmas about the MOSV fold. -/

theorem mosvAccum_eq : ∀ (pairs : List (Mesh × PlatformInstance)) (acc : MosvAcc),
    mosvAccum acc pairs =
      ⟨acc.vertices ++ mosvVerticesSpec pairs,
        acc.indices ++ mosvIndicesSpec acc.vertices.length pairs,
        acc.objects ++ pairs.map Prod.snd,
        acc.objects_indices ++ mosvObjectsIndicesSpec acc.objects.length pairs⟩ := by
  intro pairs
  induction pairs with
  | nil =>
    intro acc
    simp [mosvAccum, mosvVerticesSpec, mosvIndicesSpec, mosvObjectsIndicesSpec]
  | cons p ps ih =>
    intro acc
    simp only [mosvAccum]
    rw [ih]
    simp [mosvAppend, mosvVerticesSpec, mosvIndicesSpec, mosvObjectsIndicesSpec,
      List.length_append, List.append_assoc]

theorem mosvObjectsIndicesSpec_length : ∀ (pairs : List (Mesh × PlatformInstance)) (k : Nat),
    (mosvObjectsIndicesSpec k pairs).length = (mosvVerticesSpec pairs).length := by
  intro pairs
  induction pairs with
  | nil => intro k; rfl
  | cons p ps ih =>
    intro k
    simp [mosvObjectsIndicesSpec, mosvVerticesSpec, ih k.succ]

theorem mosvVerticesSpec_cons_length (p : Mesh × PlatformInstance)
    (ps : List (Mesh × PlatformInstance)) :
    (mosvVerticesSpec (p :: ps)).length =
      p.1.vertices.length + (mosvVerticesSpec ps).length := by
  simp [mosvVerticesSpec]

theorem mosvObjectsIndicesSpec_mem : ∀ (pairs : List (Mesh × PlatformInstance)) (k v : Nat),
    v ∈ mosvObjectsIndicesSpec k pairs → v < k + pairs.length := by
  intro pairs
  induction pairs with
  | nil => intro k v h; simp [mosvObjectsIndicesSpec] at h
  | cons p ps ih =>
    intro k v h
    simp only [mosvObjectsIndicesSpec, List.mem_append] at h
    rcases h with h | h
    · have := List.eq_of_mem_replicate h
      subst this
      simp
    · have := ih (k + 1) v h
      simp only [List.length_cons]
      omega

theorem getLast?_replicate_of_ne_zero (n : Nat) (a : Nat) (h : n ≠ 0) :
    (List.replicate n a).getLast? = some a := by
  cases n with
  | zero => exact absurd rfl h
  | succ m =>
    rw [List.replicate_succ', List.getLast?_concat]

theorem mosvObjectsIndicesSpec_getLast :
    ∀ (pairs : List (Mesh × PlatformInstance)) (k : Nat), pairs ≠ [] →
      (∀ p ∈ pairs, p.1.vertices.length ≠ 0) →
      (mosvObjectsIndicesSpec k pairs).getLast? = some (k + pairs.length - 1) := by
  intro pairs
  induction pairs with
  | nil => intro k h; exact absurd rfl h
  | cons p ps ih =>
    intro k _ hne
    cases ps with
    | nil =>
      simp only [mosvObjectsIndicesSpec, List.append_nil]
      rw [getLast?_replicate_of_ne_zero _ _ (hne p (List.mem_cons_self _ _))]
      simp
    | cons q qs =>
      have hrest_len : 0 < (mosvObjectsIndicesSpec (k + 1) (q :: qs)).length := by
        rw [mosvObjectsIndicesSpec_length, mosvVerticesSpec_cons_length]
        have := hne q (List.mem_cons_of_mem _ (List.mem_cons_self _ _))
        omega
      have hrest_ne : mosvObjectsIndicesSpec (k + 1) (q :: qs) ≠ [] :=
        List.ne_nil_of_length_pos hrest_len
      rw [show mosvObjectsIndicesSpec k (p :: q :: qs) =
        List.replicate p.1.vertices.length k ++ mosvObjectsIndicesSpec (k + 1) (q :: qs)
        from rfl]
      rw [List.getLast?_append_of_ne_nil _ hrest_ne,
        ih (k + 1) (by simp) (fun r hr => hne r (List.mem_cons_of_mem _ hr))]
      simp only [List.length_cons]
      congr 1
      omega

theorem mosvIndicesSpec_exact :
    ∀ (pairs : List (Mesh × PlatformInstance)) (offset : Nat),
      offset + (mosvVerticesSpec pairs).length < 65536 →
      (∀ p ∈ pairs, ∀ i ∈ p.1.indices, i < p.1.vertices.length) →
      mosvIndicesSpec offset pairs = mosvExactIndicesSpec offset pairs := by
  intro pairs
  induction pairs with
  | nil => intro offset _ _; rfl
  | cons p ps ih =>
    intro offset hlt hbound
    have hcons := mosvVerticesSpec_cons_length p ps
    simp only [mosvIndicesSpec, mosvExactIndicesSpec]
    congr 1
    · apply List.map_congr_left
      intro i hi
      have hiv := hbound p (List.mem_cons_self _ _) i hi
      have hoff : offset % 65536 = offset := Nat.mod_eq_of_lt (by omega)
      rw [hoff]
      exact Nat.mod_eq_of_lt (by omega)
    · exact ih (offset + p.1.vertices.length) (by omega)
        (fun r hr => hbound r (List.mem_cons_of_mem _ hr))

theorem triangulate_some_facts (a b : List Vector3) (p : Plane)
    (h : triangulate_from_two_sides a b = some p) :
    4 ≤ p.vertices.length ∧ p.vertices.length % 2 = 0 ∧
      ∀ i ∈ p.indices, i < p.vertices.length := by
  unfold triangulate_from_two_sides at h
  by_cases h1 : 2 ≤ a.length % 65536 ∧ 2 ≤ b.length % 65536
  · rw [if_pos h1] at h
    by_cases h2 : 4 ≤ (buildStripVertices a b).length ∧
        (buildStripVertices a b).length % 2 = 0
    · rw [if_pos h2] at h
      obtain rfl := (Option.some.inj h).symm
      refine ⟨h2.1, h2.2, ?_⟩
      dsimp only
      intro i hi
      have hmod : (buildStripVertices a b).length % 65536 % 2 = 0 := by omega
      have := stripIndices_mem_lt _ i hi hmod
      have := Nat.mod_le (buildStripVertices a b).length 65536
      omega
    · rw [if_neg h2] at h
      exact absurd h (by simp)
  · rw [if_neg h1] at h
    exact absurd h (by simp)

theorem create_plane_mesh_facts (runner_speed : ℚ) (points : List TrackPosition)
    (width : ℚ) (mesh : Mesh)
    (h : create_plane_mesh_from_points runner_speed points width = some mesh) :
    4 ≤ mesh.vertices.length ∧ mesh.vertices.length % 2 = 0 ∧
      ∀ i ∈ mesh.indices, i < mesh.vertices.length := by
  unfold create_plane_mesh_from_points at h
  rw [Option.map_eq_some'] at h
  obtain ⟨p, hp, rfl⟩ := h
  exact triangulate_some_facts _ _ p hp

theorem holdMeshPairs_facts (runner_speed : ℚ) :
    ∀ (notes : List HoldNote) (pairs : List (Mesh × PlatformInstance)),
      holdMeshPairs runner_speed notes = some pairs → ∀ p ∈ pairs, MeshOk p.1 := by
  intro notes
  induction notes with
  | nil =>
    intro pairs h
    obtain rfl := (Option.some.inj h).symm
    intro p hp
    exact absurd hp (by simp)
  | cons note rest ih =>
    intro pairs h
    unfold holdMeshPairs at h
    cases hm : create_hold_note_mesh runner_speed note with
    | none => rw [hm] at h; simp at h
    | some mesh =>
      rw [hm] at h
      cases hr : holdMeshPairs runner_speed rest with
      | none => rw [hr] at h; simp at h
      | some ps =>
        rw [hr] at h
        simp only at h
        obtain rfl := (Option.some.inj h).symm
        intro p hp
        rcases List.mem_cons.mp hp with rfl | hp'
        · exact create_plane_mesh_facts runner_speed note.points HIT_X_LENGTH mesh hm
        · exact ih ps hr p hp'

theorem laneGroupPairs_facts (runner_speed : ℚ) (lane_type : LaneType) :
    ∀ (ls : List Lane) (pairs : List (Mesh × PlatformInstance)),
      laneGroupPairs runner_speed lane_type ls = some pairs → ∀ p ∈ pairs, MeshOk p.1 := by
  intro ls
  induction ls with
  | nil =>
    intro pairs h
    obtain rfl := (Option.some.inj h).symm
    intro p hp
    exact absurd hp (by simp)
  | cons lane rest ih =>
    intro pairs h
    unfold laneGroupPairs at h
    by_cases he : lane_type = ⟨4⟩
    · rw [if_pos he] at h
      exact ih pairs h
    · rw [if_neg he] at h
      cases hm : create_plane_mesh_from_points runner_speed lane.points (1/25) with
      | none => rw [hm] at h; simp at h
      | some mesh =>
        rw [hm] at h
        cases hr : laneGroupPairs runner_speed lane_type rest with
        | none => rw [hr] at h; simp at h
        | some ps =>
          rw [hr] at h
          simp only at h
          obtain rfl := (Option.some.inj h).symm
          intro p hp
          rcases List.mem_cons.mp hp with rfl | hp'
          · exact create_plane_mesh_facts runner_speed lane.points (1/25) mesh hm
          · exact ih ps hr p hp'

theorem lanesMeshPairs_facts (runner_speed : ℚ) :
    ∀ (lanes : List (LaneType × List Lane)) (pairs : List (Mesh × PlatformInstance)),
      lanesMeshPairs runner_speed lanes = some pairs → ∀ p ∈ pairs, MeshOk p.1 := by
  intro lanes
  induction lanes with
  | nil =>
    intro pairs h
    obtain rfl := (Option.some.inj h).symm
    intro p hp
    exact absurd hp (by simp)
  | cons g rest ih =>
    intro pairs h
    unfold lanesMeshPairs at h
    cases hg : laneGroupPairs runner_speed g.1 g.2 with
    | none => rw [hg] at h; simp at h
    | some these =>
      rw [hg] at h
      cases hr : lanesMeshPairs runner_speed rest with
      | none => rw [hr] at h; simp at h
      | some those =>
        rw [hr] at h
        simp only at h
        obtain rfl := (Option.some.inj h).symm
        intro p hp
        rcases List.mem_append.mp hp with hp' | hp'
        · exact laneGroupPairs_facts runner_speed g.1 g.2 these hg p hp'
        · exact ih those hr p hp'

theorem mosvFinish_inv (acc : MosvAcc) (r : Mesh × List PlatformInstance × List Nat)
    (h : mosvFinish acc = some r) :
    acc.vertices.length = acc.objects_indices.length ∧
    acc.objects_indices.getLast? = some (acc.objects.length - 1) ∧
    r = (Mesh.transform_translate ⟨acc.vertices, acc.indices⟩ ⟨0, -(1/200), 0⟩,
      acc.objects, acc.objects_indices) := by
  unfold mosvFinish at h
  by_cases hlen : acc.vertices.length = acc.objects_indices.length
  · rw [if_pos hlen] at h
    cases hl : acc.objects_indices.getLast? with
    | none => rw [hl] at h; simp at h
    | some last =>
      rw [hl] at h
      simp only at h
      by_cases hcond : last = acc.objects.length - 1
      · rw [if_pos hcond] at h
        exact ⟨hlen, by rw [hcond], (Option.some.inj h).symm⟩
      · rw [if_neg hcond] at h
        simp at h
  · rw [if_neg hlen] at h
    simp at h

theorem mosvFinish_some (acc : MosvAcc)
    (hlen : acc.vertices.length = acc.objects_indices.length)
    (hlast : acc.objects_indices.getLast? = some (acc.objects.length - 1)) :
    mosvFinish acc = some (Mesh.transform_translate ⟨acc.vertices, acc.indices⟩
      ⟨0, -(1/200), 0⟩, acc.objects, acc.objects_indices) := by
  unfold mosvFinish
  rw [if_pos hlen, hlast]
  simp

theorem create_hold_notes_inv (runner_speed : ℚ) (notes : List HoldNote)
    (d : HoldNotesDescription) (h : create_hold_notes runner_speed notes = some d) :
    ∃ pairs r, holdMeshPairs runner_speed notes = some pairs ∧
      mosvFinish (mosvAccum ⟨[], [], [], []⟩ pairs) = some r ∧
      d = ⟨r.2.1, r.1, r.2.2⟩ := by
  unfold create_hold_notes at h
  cases hp : holdMeshPairs runner_speed notes with
  | none => rw [hp] at h; simp at h
  | some pairs =>
    rw [hp] at h
    simp only at h
    cases hf : mosvFinish (mosvAccum ⟨[], [], [], []⟩ pairs) with
    | none => rw [hf] at h; simp at h
    | some r =>
      rw [hf] at h
      simp only at h
      exact ⟨pairs, r, rfl, hf, (Option.some.inj h).symm⟩

theorem create_lanes_inv (runner_speed : ℚ) (lanes : List (LaneType × List Lane))
    (d : LanesDescription) (h : create_lanes runner_speed lanes = some d) :
    ∃ pairs r, lanesMeshPairs runner_speed lanes = some pairs ∧
      mosvFinish (mosvAccum ⟨[], [], [], []⟩ pairs) = some r ∧
      d = ⟨r.2.1, r.1, r.2.2⟩ := by
  unfold create_lanes at h
  cases hp : lanesMeshPairs runner_speed lanes with
  | none => rw [hp] at h; simp at h
  | some pairs =>
    rw [hp] at h
    simp only at h
    cases hf : mosvFinish (mosvAccum ⟨[], [], [], []⟩ pairs) with
    | none => rw [hf] at h; simp at h
    | some r =>
      rw [hf] at h
      simp only at h
      exact ⟨pairs, r, rfl, hf, (Option.some.inj h).symm⟩

theorem mosv_build_invariants (pairs : List (Mesh × PlatformInstance))
    (hmesh : ∀ p ∈ pairs, MeshOk p.1) (r : Mesh × List PlatformInstance × List Nat)
    (h : mosvFinish (mosvAccum ⟨[], [], [], []⟩ pairs) = some r) :
    r.2.2.length = r.1.vertices.length ∧
    (∀ k ∈ r.2.2, k < r.2.1.length) ∧
    r.2.2.getLast? = some (r.2.1.length - 1) ∧
    r.1.indices = mosvIndicesSpec 0 pairs ∧
    (r.1.vertices.length < 65536 → r.1.indices = mosvExactIndicesSpec 0 pairs) := by
  have hacc : mosvAccum ⟨[], [], [], []⟩ pairs =
      ⟨mosvVerticesSpec pairs, mosvIndicesSpec 0 pairs, pairs.map Prod.snd,
        mosvObjectsIndicesSpec 0 pairs⟩ := by
    rw [mosvAccum_eq]
    rfl
  rw [hacc] at h
  obtain ⟨hlen, hlast, hr⟩ := mosvFinish_inv _ r h
  dsimp only at hlen hlast hr
  subst hr
  refine ⟨?_, ?_, ?_, rfl, ?_⟩
  · dsimp only [Mesh.transform_translate]
    rw [List.length_map]
    exact (mosvObjectsIndicesSpec_length pairs 0).symm ▸ hlen.symm
  · intro k hk
    dsimp only at hk ⊢
    rw [List.length_map]
    have := mosvObjectsIndicesSpec_mem pairs 0 k hk
    omega
  · dsimp only at hlast ⊢
    exact hlast
  · intro hsize
    dsimp only [Mesh.transform_translate] at hsize ⊢
    rw [List.length_map] at hsize
    exact mosvIndicesSpec_exact pairs 0 (by omega)
      (fun p hp => (hmesh p hp).2.2)

/-- C6 (amended): for every hold-note list and every lane map from which a MOSV
description is successfully built, the description has exactly one
`objects_indices` entry per merged-mesh vertex, every recorded object index is
below `objects.len()`, and the last recorded object index equals
`objects.len() - 1`; the merged index list is the concatenation of the
per-object mesh indices re-based by the running vertex-count offset as held in
`u16` (`(i + offset % 65536) % 65536`), which equals the exact untruncated
re-basing whenever the merged vertex count stays below 65536 — the bound the
`u16` index arithmetic forces, as the counterexample shows. -/
theorem c6_mosv_invariants :
    (∀ (runner_speed : ℚ) (notes : List HoldNote) (d : HoldNotesDescription),
        create_hold_notes runner_speed notes = some d →
        d.objects_indices.length = d.mesh.vertices.length ∧
        (∀ k ∈ d.objects_indices, k < d.objects.length) ∧
        d.objects_indices.getLast? = some (d.objects.length - 1) ∧
        (∀ pairs, holdMeshPairs runner_speed notes = some pairs →
          d.mesh.indices = mosvIndicesSpec 0 pairs ∧
          (d.mesh.vertices.length < 65536 →
            d.mesh.indices = mosvExactIndicesSpec 0 pairs))) ∧
    (∀ (runner_speed : ℚ) (lanes : List (LaneType × List Lane)) (d : LanesDescription),
        create_lanes runner_speed lanes = some d →
        d.objects_indices.length = d.mesh.vertices.length ∧
        (∀ k ∈ d.objects_indices, k < d.objects.length) ∧
        d.objects_indices.getLast? = some (d.objects.length - 1) ∧
        (∀ pairs, lanesMeshPairs runner_speed lanes = some pairs →
          d.mesh.indices = mosvIndicesSpec 0 pairs ∧
          (d.mesh.vertices.length < 65536 →
            d.mesh.indices = mosvExactIndicesSpec 0 pairs))) := by
  constructor
  · intro runner_speed notes d h
    obtain ⟨pairs, r, hp, hf, rfl⟩ := create_hold_notes_inv runner_speed notes d h
    obtain ⟨h1, h2, h3, h4, h5⟩ :=
      mosv_build_invariants pairs (holdMeshPairs_facts runner_speed notes pairs hp) r hf
    refine ⟨h1, h2, h3, ?_⟩
    intro pairs2 hp2
    rw [hp] at hp2
    obtain rfl := Option.some.inj hp2
    exact ⟨h4, h5⟩
  · intro runner_speed lanes d h
    obtain ⟨pairs, r, hp, hf, rfl⟩ := create_lanes_inv runner_speed lanes d h
    obtain ⟨h1, h2, h3, h4, h5⟩ :=
      mosv_build_invariants pairs (lanesMeshPairs_facts runner_speed lanes pairs hp) r hf
    refine ⟨h1, h2, h3, ?_⟩
    intro pairs2 hp2
    rw [hp] at hp2
    obtain rfl := Option.some.inj hp2
    exact ⟨h4, h5⟩

/-- C6 (amended) witness: the description built from one 2-point hold note at
runner speed 1 satisfies the invariants, with exact re-basing. -/
theorem c6_witness :
    create_hold_notes 1 [c6TinyNote] = some c6TinyDesc ∧
    holdMeshPairs 1 [c6TinyNote] = some [(c6TinyMesh, c6HoldInstance)] ∧
    c6TinyDesc.objects_indices.length = c6TinyDesc.mesh.vertices.length ∧
    c6TinyDesc.objects_indices.getLast? = some (c6TinyDesc.objects.length - 1) ∧
    c6TinyDesc.mesh.indices = mosvExactIndicesSpec 0 [(c6TinyMesh, c6HoldInstance)] := by
  have hmesh : create_hold_note_mesh 1 c6TinyNote = some c6TinyMesh := by
    norm_num [create_hold_note_mesh, create_plane_mesh_from_points,
      track_position_to_xz_vertices, HIT_X_LENGTH, triangulate_from_two_sides,
      buildStripVertices, interleave, pairTailLeft, pairTailRight, stripIndices,
      quadStripIndices, Plane.to_mesh, List.getD, c6TinyNote, c6TinyMesh]
  have hpairs : holdMeshPairs 1 [c6TinyNote] = some [(c6TinyMesh, c6HoldInstance)] := by
    unfold holdMeshPairs
    rw [hmesh]
    norm_num [holdMeshPairs, get_base_color_hit, c6TinyNote, c6HoldInstance]
  have hcreate : create_hold_notes 1 [c6TinyNote] = some c6TinyDesc := by
    unfold create_hold_notes
    rw [hpairs]
    norm_num [mosvAccum, mosvAppend, mosvFinish, Mesh.transform_translate,
      c6TinyMesh, c6TinyDesc, c6HoldInstance,
      show (List.replicate 4 0).getLast? = some 0 from by decide,
      show List.replicate 4 0 = [0, 0, 0, 0] from by decide]
  have h := (c6_mosv_invariants).1 1 [c6TinyNote] c6TinyDesc hcreate
  obtain ⟨hspec1, hspec2⟩ := h.2.2.2 [(c6TinyMesh, c6HoldInstance)] hpairs
  exact ⟨hcreate, hpairs, h.1, h.2.2.1, hspec2 (by norm_num [c6TinyDesc])⟩

theorem mosvAccum_from_empty (pairs : List (Mesh × PlatformInstance)) :
    mosvAccum ⟨[], [], [], []⟩ pairs =
      ⟨mosvVerticesSpec pairs, mosvIndicesSpec 0 pairs, pairs.map Prod.snd,
        mosvObjectsIndicesSpec 0 pairs⟩ := by
  rw [mosvAccum_eq]
  rfl

/-- Cons equation of `holdMeshPairs` when both the head mesh and the tail
succeed. -/
theorem holdMeshPairs_cons_some (runner_speed : ℚ) (note : HoldNote)
    (rest : List HoldNote) (mesh : Mesh) (pairs : List (Mesh × PlatformInstance))
    (hm : create_hold_note_mesh runner_speed note = some mesh)
    (hr : holdMeshPairs runner_speed rest = some pairs) :
    holdMeshPairs runner_speed (note :: rest) =
      some ((mesh, ⟨0, 0, get_base_color_hit note.ty⟩) :: pairs) := by
  unfold holdMeshPairs
  rw [hm, hr]

/-- Forward direction of the hold-note builder: successful mesh pairs and a
successful finish yield the description. -/
theorem create_hold_notes_some (runner_speed : ℚ) (notes : List HoldNote)
    (pairs : List (Mesh × PlatformInstance)) (r : Mesh × List PlatformInstance × List Nat)
    (hp : holdMeshPairs runner_speed notes = some pairs)
    (hf : mosvFinish (mosvAccum ⟨[], [], [], []⟩ pairs) = some r) :
    create_hold_notes runner_speed notes = some ⟨r.2.1, r.1, r.2.2⟩ := by
  unfold create_hold_notes
  simp only [hp, hf]

/-- C6 counterexample: two hold notes, one with 32769 points (a 65538-vertex
strip mesh) followed by one with 3 points (a 6-vertex, 12-index strip mesh). The
running vertex-count offset recorded for the second object is 65538, whose
`as u16` cast is 2, so the merged mesh re-bases the second object by 2 instead
of 65538: the built description is `some` and its merged indices differ from the
exact re-basing the claim asserts. -/
theorem c6_counterexample :
    (create_hold_notes 1 [c6BigNote, c6SmallNote]).map (fun d => d.mesh.indices) =
      some [2, 3, 4, 3, 4, 5, 4, 5, 6, 5, 6, 7] ∧
    (holdMeshPairs 1 [c6BigNote, c6SmallNote]).map (fun pairs => mosvExactIndicesSpec 0 pairs) =
      some [65538, 65539, 65540, 65539, 65540, 65541,
        65540, 65541, 65542, 65541, 65542, 65543] ∧
    ([2, 3, 4, 3, 4, 5, 4, 5, 6, 5, 6, 7] : List Nat) ≠
      [65538, 65539, 65540, 65539, 65540, 65541, 65540, 65541, 65542, 65541, 65542, 65543] := by
  have hLb : c6BigLeft.length = 32769 := by
    unfold c6BigLeft track_position_to_xz_vertices c6BigNote
    rw [List.length_map, List.length_map, List.length_replicate]
  have hRb : c6BigRight.length = 32769 := by
    unfold c6BigRight track_position_to_xz_vertices c6BigNote
    rw [List.length_map, List.length_map, List.length_replicate]
  have hvlen : (buildStripVertices c6BigLeft c6BigRight).length = 65538 := by
    rw [buildStripVertices_length, hLb, hRb]
    norm_num
  have htri : triangulate_from_two_sides c6BigLeft c6BigRight =
      some ⟨buildStripVertices c6BigLeft c6BigRight, []⟩ := by
    rw [triangulate_eq_of c6BigLeft c6BigRight (by rw [hLb]; norm_num)
      (by rw [hRb]; norm_num) (by rw [hvlen]; norm_num) (by rw [hvlen]),
      hvlen, show (65538 : Nat) % 65536 = 2 from by norm_num]
    rfl
  have hbl : c6BigMesh.vertices.length = 65538 := hvlen
  have hbigmesh : create_hold_note_mesh 1 c6BigNote = some c6BigMesh := by
    show (triangulate_from_two_sides c6BigLeft c6BigRight).map Plane.to_mesh = some c6BigMesh
    rw [htri]
    rfl
  have hsmallmesh : create_hold_note_mesh 1 c6SmallNote = some c6SmallMesh := by
    norm_num [create_hold_note_mesh, create_plane_mesh_from_points,
      track_position_to_xz_vertices, HIT_X_LENGTH, triangulate_from_two_sides,
      buildStripVertices, interleave, pairTailLeft, pairTailRight, stripIndices,
      quadStripIndices, Plane.to_mesh, List.getD, c6SmallNote, c6SmallMesh]
  have hrest : holdMeshPairs 1 [c6SmallNote] = some [(c6SmallMesh, c6HoldInstance)] := by
    unfold holdMeshPairs
    rw [hsmallmesh]
    norm_num [holdMeshPairs, get_base_color_hit, c6SmallNote, c6HoldInstance]
  have hobj : (⟨0, 0, get_base_color_hit c6BigNote.ty⟩ : PlatformInstance) = c6HoldInstance := by
    rw [show c6BigNote.ty = (⟨0⟩ : HitNoteType) from rfl]
    norm_num [get_base_color_hit, c6HoldInstance]
  have hpairs : holdMeshPairs 1 [c6BigNote, c6SmallNote] =
      some [(c6BigMesh, c6HoldInstance), (c6SmallMesh, c6HoldInstance)] := by
    rw [holdMeshPairs_cons_some 1 c6BigNote [c6SmallNote] c6BigMesh
      [(c6SmallMesh, c6HoldInstance)] hbigmesh hrest, hobj]
  have hcounts : ∀ p ∈ [(c6BigMesh, c6HoldInstance), (c6SmallMesh, c6HoldInstance)],
      p.1.vertices.length ≠ 0 := by
    intro p hp
    rcases List.mem_cons.mp hp with rfl | hp2
    · rw [hbl]
      norm_num
    · rcases List.mem_cons.mp hp2 with rfl | hp3
      · norm_num [c6SmallMesh]
      · exact absurd hp3 (by simp)
  have hlast : (mosvObjectsIndicesSpec 0
      [(c6BigMesh, c6HoldInstance), (c6SmallMesh, c6HoldInstance)]).getLast? = some 1 := by
    rw [mosvObjectsIndicesSpec_getLast _ 0 (by simp) hcounts]
    norm_num
  have hfin : mosvFinish (mosvAccum ⟨[], [], [], []⟩
      [(c6BigMesh, c6HoldInstance), (c6SmallMesh, c6HoldInstance)]) =
      some (Mesh.transform_translate
          ⟨mosvVerticesSpec [(c6BigMesh, c6HoldInstance), (c6SmallMesh, c6HoldInstance)],
            mosvIndicesSpec 0 [(c6BigMesh, c6HoldInstance), (c6SmallMesh, c6HoldInstance)]⟩
          ⟨0, -(1/200), 0⟩,
        [(c6BigMesh, c6HoldInstance), (c6SmallMesh, c6HoldInstance)].map Prod.snd,
        mosvObjectsIndicesSpec 0 [(c6BigMesh, c6HoldInstance), (c6SmallMesh, c6HoldInstance)]) := by
    rw [mosvAccum_from_empty]
    exact mosvFinish_some _ (mosvObjectsIndicesSpec_length _ 0).symm (by simpa using hlast)
  have hcreate : create_hold_notes 1 [c6BigNote, c6SmallNote] =
      some ⟨[(c6BigMesh, c6HoldInstance), (c6SmallMesh, c6HoldInstance)].map Prod.snd,
        Mesh.transform_translate
          ⟨mosvVerticesSpec [(c6BigMesh, c6HoldInstance), (c6SmallMesh, c6HoldInstance)],
            mosvIndicesSpec 0 [(c6BigMesh, c6HoldInstance), (c6SmallMesh, c6HoldInstance)]⟩
          ⟨0, -(1/200), 0⟩,
        mosvObjectsIndicesSpec 0 [(c6BigMesh, c6HoldInstance), (c6SmallMesh, c6HoldInstance)]⟩ :=
    create_hold_notes_some 1 [c6BigNote, c6SmallNote] _ _ hpairs hfin
  have hispec : mosvIndicesSpec 0 [(c6BigMesh, c6HoldInstance), (c6SmallMesh, c6HoldInstance)] =
      [2, 3, 4, 3, 4, 5, 4, 5, 6, 5, 6, 7] := by
    simp only [mosvIndicesSpec]
    rw [show c6BigMesh.indices = [] from rfl, hbl]
    norm_num [c6SmallMesh]
  have hexact : mosvExactIndicesSpec 0
      [(c6BigMesh, c6HoldInstance), (c6SmallMesh, c6HoldInstance)] =
      [65538, 65539, 65540, 65539, 65540, 65541, 65540, 65541, 65542, 65541, 65542, 65543] := by
    simp only [mosvExactIndicesSpec]
    rw [show c6BigMesh.indices = [] from rfl, hbl]
    norm_num [c6SmallMesh]
  refine ⟨?_, ?_, by decide⟩
  · rw [hcreate]
    simp only [Option.map_some']
    show some (mosvIndicesSpec 0 [(c6BigMesh, c6HoldInstance), (c6SmallMesh, c6HoldInstance)]) =
      some [2, 3, 4, 3, 4, 5, 4, 5, 6, 5, 6, 7]
    rw [hispec]
  · rw [hpairs]
    simp only [Option.map_some']
    rw [hexact]

theorem laneGroupPairs_enemy (runner_speed : ℚ) :
    ∀ (ls : List Lane), laneGroupPairs runner_speed ⟨4⟩ ls = some [] := by
  intro ls
  induction ls with
  | nil => rfl
  | cons l rest ih =>
    unfold laneGroupPairs
    rw [if_pos rfl]
    exact ih

theorem lanesMeshPairs_all_enemy (runner_speed : ℚ) :
    ∀ (lanes : List (LaneType × List Lane)), (∀ g ∈ lanes, g.1 = ⟨4⟩) →
      lanesMeshPairs runner_speed lanes = some [] := by
  intro lanes
  induction lanes with
  | nil => intro _; rfl
  | cons g rest ih =>
    intro hall
    unfold lanesMeshPairs
    rw [show g.1 = (⟨4⟩ : LaneType) from hall g (List.mem_cons_self _ _),
      laneGroupPairs_enemy, ih (fun p hp => hall p (List.mem_cons_of_mem _ hp))]
    rfl

/-- C9: building the hold-note MOSV description from zero hold notes, or the
lane MOSV description from a lane map whose groups are all of the excluded enemy
type `LaneType(4)`, panics (the `unwrap` of `objects_indices.last()` is `None`
and `objects.len() - 1` underflows) instead of returning an empty draw unit:
modelled as a `none` result. -/
theorem c9_empty_mosv_panics :
    (∀ runner_speed : ℚ, create_hold_notes runner_speed [] = none) ∧
    (∀ (runner_speed : ℚ) (lanes : List (LaneType × List Lane)),
        (∀ g ∈ lanes, g.1 = ⟨4⟩) → create_lanes runner_speed lanes = none) := by
  constructor
  · intro runner_speed
    rfl
  · intro runner_speed lanes hall
    unfold create_lanes
    rw [lanesMeshPairs_all_enemy runner_speed lanes hall]
    rfl

/-- C9 witness: the empty hold-note list and a lane map with a single
enemy-type group. -/
theorem c9_witness :
    create_hold_notes 1 [] = none ∧
    create_lanes 1 [(⟨4⟩, [c9Lane])] = none := by
  have h := c9_empty_mosv_panics
  refine ⟨h.1 1, h.2 1 [(⟨4⟩, [c9Lane])] ?_⟩
  intro g hg
  simp only [List.mem_singleton] at hg
  subst hg
  rfl

end Eclale

